import Mathlib

/-!
# Metrics shim of the certificate controller (`pkg/cert/metrics/metrics.go`)

The Go file declares four Prometheus instruments and six one-line accessors.
The instruments live in the Prometheus client library, which is not part of
the repository.  The library is modelled by its documented contract:

* a metric vector is a descriptor (name, kind, ordered label keys) together
  with a finite map from tuples of label values to readings;
* `WithLabelValues` checks the number of values against the number of label
  keys and every value for being valid UTF-8 (a failure of either check is the
  panic of the Go call), and returns the series of that tuple, creating it
  with reading 0 when it is not there yet;
* `Inc` and `Dec` move a reading by one, `Set` overwrites it;
* `DeleteLabelValues` runs the same checks, removes the series when they pass
  and there is one, and reports a failed check as `false`, without panic.

A Go string is a sequence of bytes, valid UTF-8 or not; label values are such
sequences.  Go's `int` is modelled by `Int`: every statement below holds for
all integers, hence for those of 64 bits.

Readings are integers.  The library keeps them in binary64 numbers; `Inc` and
`Dec` are taken as the exact steps of its contract.  The one conversion the Go
source performs itself, `float64(count)` in `ReportCertEntries`, is modelled
with the rounding of IEEE-754 binary64 (53-bit significand, to nearest, ties to
even), so that the reading `Set` stores is the integer the converted number is
equal to.

A failed call is a panic: it returns an error and no state, the state of the
package stays the one the call was given.
-/

namespace Metrics

/-! ## Go strings -/

/-- A byte. -/
abbrev Byte := Fin 256

/-- A Go string: any sequence of bytes. -/
abbrev GoString := List Byte

/-- UTF-8 encoding of one code point. -/
def encodeRune (c : Char) : GoString :=
  let n := c.toNat
  if n < 0x80 then [Fin.ofNat n]
  else if n < 0x800 then [Fin.ofNat (0xC0 + n / 64), Fin.ofNat (0x80 + n % 64)]
  else if n < 0x10000 then
    [Fin.ofNat (0xE0 + n / 4096), Fin.ofNat (0x80 + n / 64 % 64), Fin.ofNat (0x80 + n % 64)]
  else
    [Fin.ofNat (0xF0 + n / 262144), Fin.ofNat (0x80 + n / 4096 % 64),
      Fin.ofNat (0x80 + n / 64 % 64), Fin.ofNat (0x80 + n % 64)]

/-- The Go string a string literal of the source denotes: the UTF-8 encoding of
its text. -/
def GoString.ofString (s : String) : GoString := s.data.flatMap encodeRune

/-- Continuation byte of a UTF-8 sequence. -/
def isCont (b : Byte) : Bool := 0x80 ≤ b.val && b.val ≤ 0xBF

/-- One step of `utf8.ValidString`: `b0` followed by `rest` starts a well-formed
encoding of a code point (no stray or missing continuation byte, no overlong
form, no surrogate, nothing above U+10FFFF); the result is the number of bytes
of `rest` the encoding takes. -/
def sequenceTail (b0 : Byte) (rest : GoString) : Option Nat :=
  if b0.val < 0x80 then some 0
  else if 0xC2 ≤ b0.val ∧ b0.val ≤ 0xDF then
    match rest with
    | b1 :: _ => if isCont b1 then some 1 else none
    | _ => none
  else if b0.val = 0xE0 then
    match rest with
    | b1 :: b2 :: _ =>
      if (0xA0 ≤ b1.val && b1.val ≤ 0xBF) && isCont b2 then some 2 else none
    | _ => none
  else if (0xE1 ≤ b0.val ∧ b0.val ≤ 0xEC) ∨ b0.val = 0xEE ∨ b0.val = 0xEF then
    match rest with
    | b1 :: b2 :: _ => if isCont b1 && isCont b2 then some 2 else none
    | _ => none
  else if b0.val = 0xED then
    match rest with
    | b1 :: b2 :: _ =>
      if (0x80 ≤ b1.val && b1.val ≤ 0x9F) && isCont b2 then some 2 else none
    | _ => none
  else if b0.val = 0xF0 then
    match rest with
    | b1 :: b2 :: b3 :: _ =>
      if (0x90 ≤ b1.val && b1.val ≤ 0xBF) && isCont b2 && isCont b3 then some 3 else none
    | _ => none
  else if 0xF1 ≤ b0.val ∧ b0.val ≤ 0xF3 then
    match rest with
    | b1 :: b2 :: b3 :: _ => if isCont b1 && isCont b2 && isCont b3 then some 3 else none
    | _ => none
  else if b0.val = 0xF4 then
    match rest with
    | b1 :: b2 :: b3 :: _ =>
      if (0x80 ≤ b1.val && b1.val ≤ 0x8F) && isCont b2 && isCont b3 then some 3 else none
    | _ => none
  else none

/-- Loop of `utf8.ValidString`, one encoding per round. -/
def validLoop : Nat → GoString → Bool
  | 0, s => s.isEmpty
  | _ + 1, [] => true
  | fuel + 1, b0 :: rest =>
    match sequenceTail b0 rest with
    | some k => validLoop fuel (rest.drop k)
    | none => false

/-- Check `utf8.ValidString`: the bytes are a sequence of well-formed UTF-8
encodings. -/
def validString (s : GoString) : Bool := validLoop s.length s

/-! ## The metric vectors of the client library -/

/-- Kind of an instrument. -/
inductive Kind where
  | counter
  | gauge
deriving DecidableEq, Repr

/-- Options of an instrument (`prometheus.CounterOpts` / `prometheus.GaugeOpts`),
restricted to the two fields the source sets. -/
structure Opts where
  Name : String
  Help : String
deriving DecidableEq, Repr

/-- Descriptor of a metric vector: what `NewCounterVec` / `NewGaugeVec` fix once
and for all. -/
structure Desc where
  fqName : String
  help : String
  kind : Kind
  variableLabels : List String
deriving DecidableEq, Repr

/-- Constructor `prometheus.NewCounterVec(opts, labelNames)`. -/
def NewCounterVec (opts : Opts) (labelNames : List String) : Desc :=
  { fqName := opts.Name, help := opts.Help, kind := Kind.counter, variableLabels := labelNames }

/-- Constructor `prometheus.NewGaugeVec(opts, labelNames)`. -/
def NewGaugeVec (opts : Opts) (labelNames : List String) : Desc :=
  { fqName := opts.Name, help := opts.Help, kind := Kind.gauge, variableLabels := labelNames }

/-- The series of one metric vector: the reading of each tuple of label values,
`none` when the vector holds no series for the tuple. -/
abbrev Series := List GoString → Option Int

/-- A vector without any series. -/
def Series.empty : Series := fun _ => none

/-- Reading of a series as a scrape shows it; a tuple without series has no line
in the scrape and counts as 0. -/
def reading (m : Series) (lvs : List GoString) : Int := (m lvs).getD 0

/-- Failure of a lookup in a metric vector. -/
inductive VecError where
  | inconsistentCardinality (expected got : Nat)
  | invalidUTF8 (value : GoString)
deriving DecidableEq, Repr

/-- Check of the label values against the descriptor: as many values as label
keys, and every value valid UTF-8. -/
def validateLabelValues (d : Desc) (lvs : List GoString) : Except VecError Unit :=
  if lvs.length ≠ d.variableLabels.length then
    Except.error (VecError.inconsistentCardinality d.variableLabels.length lvs.length)
  else
    match lvs.find? (fun v => !validString v) with
    | some v => Except.error (VecError.invalidUTF8 v)
    | none => Except.ok ()

/-- Lookup `vec.WithLabelValues(lvs...)`: fails (the Go call panics) when the
check of the label values fails, otherwise makes sure the series exists,
creating it at 0. -/
def WithLabelValues (d : Desc) (m : Series) (lvs : List GoString) : Except VecError Series :=
  match validateLabelValues d lvs with
  | Except.error e => Except.error e
  | Except.ok _ =>
    match m lvs with
    | some _ => Except.ok m
    | none => Except.ok (Function.update m lvs (some 0))

/-- Step `Inc()` on the series of `lvs` (counter or gauge). -/
def Series.Inc (m : Series) (lvs : List GoString) : Series :=
  Function.update m lvs ((m lvs).map (fun v => v + 1))

/-- Step `Dec()` on the series of `lvs` (gauge). -/
def Series.Dec (m : Series) (lvs : List GoString) : Series :=
  Function.update m lvs ((m lvs).map (fun v => v - 1))

/-- Step `Set(v)` on the series of `lvs` (gauge). -/
def Series.Set (m : Series) (lvs : List GoString) (v : Int) : Series :=
  Function.update m lvs ((m lvs).map (fun _ => v))

/-- Call `vec.DeleteLabelValues(lvs...)`: removes the series of `lvs` and tells
whether there was one; label values that fail the check delete nothing and are
no failure. -/
def DeleteLabelValues (d : Desc) (m : Series) (lvs : List GoString) : Series × Bool :=
  match validateLabelValues d lvs with
  | Except.error _ => (m, false)
  | Except.ok _ =>
    match m lvs with
    | some _ => (Function.update m lvs none, true)
    | none => (m, false)

/-! ## Conversions of the Go standard library used by the accessors -/

/-- Text of a boolean, `strconv.FormatBool`. -/
def FormatBool (b : Bool) : GoString :=
  if b then GoString.ofString "true" else GoString.ofString "false"

/-- Byte of a decimal digit, `'0' + d`. -/
def digitByte (d : Nat) : Byte := Fin.ofNat (48 + d)

/-- Byte of the minus sign. -/
def minusByte : Byte := Fin.ofNat '-'.toNat

/-- Digit loop of `strconv.formatBits` in base 10: the digits of `u` are pushed
in front of `acc`, least significant first. -/
def formatBits : Nat → Nat → GoString → GoString
  | 0, _, acc => acc
  | fuel + 1, u, acc =>
    if 10 ≤ u then formatBits fuel (u / 10) (digitByte (u % 10) :: acc)
    else digitByte u :: acc

/-- Decimal text of an integer, `strconv.FormatInt(i, 10)`: a minus sign for a
negative number, then the digits of the magnitude. -/
def FormatInt (i : Int) : GoString :=
  (if i < 0 then [minusByte] else []) ++ formatBits (i.natAbs + 1) i.natAbs []

/-- Number of low bits of `m` that do not fit a significand of 53 bits. -/
def excessBits : Nat → Nat → Nat
  | 0, _ => 0
  | fuel + 1, m => if m < 2 ^ 53 then 0 else excessBits fuel (m / 2) + 1

/-- Rounding of a natural number to a multiple of `2 ^ e`, to nearest, ties to
the even multiple. -/
def roundToEven (m e : Nat) : Nat :=
  let q := m / 2 ^ e
  let r := m % 2 ^ e
  if 2 * r < 2 ^ e ∨ (2 * r = 2 ^ e ∧ q % 2 = 0) then q * 2 ^ e else (q + 1) * 2 ^ e

/-- Conversion `float64(n)` of a Go integer, as the integer the resulting
binary64 number is equal to. -/
def float64 (n : Int) : Int :=
  let m := n.natAbs
  let v := roundToEven m (excessBits m m)
  if n < 0 then -(v : Int) else (v : Int)

/-! ## The package: declarations, `init` and accessors -/

/-- The acme_account_registrations counter. -/
def ACMEAccountRegistrations : Desc :=
  NewCounterVec
    { Name := "acme_account_registrations", Help := "Number of ACME account registrations" }
    ["server", "email"]

/-- The acme_obtains counter. -/
def ACMETotalObtains : Desc :=
  NewCounterVec
    { Name := "acme_obtains", Help := "Total number of ACME obtains" }
    ["issuer", "success", "dns_challenges", "renew"]

/-- The acme_active_dns_challenges gauge. -/
def ACMEActiveDNSChallenges : Desc :=
  NewGaugeVec
    { Name := "acme_active_dns_challenges", Help := "Currently active number of ACME DNS challenges" }
    ["issuer"]

/-- The cert_entries gauge. -/
def CertEntries : Desc :=
  NewGaugeVec
    { Name := "cert_entries", Help := "Total number of cert entries per issuer" }
    ["issuertype", "issuer"]

/-- Failure of a registration. -/
inductive RegError where
  | alreadyRegistered (fqName : String)
deriving DecidableEq, Repr

/-- What `init` fills: the collectors of the default registerer and the paths
handed to the HTTP server. -/
structure Registry where
  collectors : List Desc
  handlers : List String
deriving DecidableEq, Repr

/-- Registration `prometheus.MustRegister(c)`: a collector whose name is already
registered is refused (the Go call panics). -/
def MustRegister (r : Registry) (c : Desc) : Except RegError Registry :=
  if r.collectors.any (fun d => d.fqName == c.fqName) then
    Except.error (RegError.alreadyRegistered c.fqName)
  else
    Except.ok { r with collectors := r.collectors ++ [c] }

/-- Registration `server.RegisterHandler(path, handler)`. -/
def RegisterHandler (r : Registry) (path : String) : Registry :=
  { r with handlers := r.handlers ++ [path] }

/-- Package initialisation `init()`, run on the empty registry. -/
def init : Except RegError Registry := do
  let r ← MustRegister { collectors := [], handlers := [] } ACMEAccountRegistrations
  let r ← MustRegister r ACMETotalObtains
  let r ← MustRegister r ACMEActiveDNSChallenges
  let r ← MustRegister r CertEntries
  pure (RegisterHandler r "/metrics")

/-- Mutable state of the package: the series of the four metric vectors. -/
structure State where
  acmeAccountRegistrations : Series
  acmeObtains : Series
  acmeActiveDNSChallenges : Series
  certEntries : Series

/-- State right after initialisation: no vector has a series. -/
def State.fresh : State :=
  { acmeAccountRegistrations := Series.empty
    acmeObtains := Series.empty
    acmeActiveDNSChallenges := Series.empty
    certEntries := Series.empty }

/-- AddACMEAccountRegistration increments the ACMEAccountRegistrations counter. -/
def AddACMEAccountRegistration (server email : GoString) (s : State) : Except VecError State :=
  match WithLabelValues ACMEAccountRegistrations s.acmeAccountRegistrations [server, email] with
  | Except.error e => Except.error e
  | Except.ok m => Except.ok { s with acmeAccountRegistrations := Series.Inc m [server, email] }

/-- AddACMEObtain increments the ACMETotalObtains counter, when count is
positive. -/
def AddACMEObtain (issuer : GoString) (success : Bool) (count : Int) (renew : Bool) (s : State) :
    Except VecError State :=
  if count > 0 then
    match WithLabelValues ACMETotalObtains s.acmeObtains
        [issuer, FormatBool success, FormatInt count, FormatBool renew] with
    | Except.error e => Except.error e
    | Except.ok m =>
      let m := Series.Inc m [issuer, FormatBool success, FormatInt count, FormatBool renew]
      Except.ok { s with acmeObtains := m }
  else
    Except.ok s

/-- AddActiveACMEDNSChallenge increments the ACMEActiveDNSChallenges gauge. -/
def AddActiveACMEDNSChallenge (issuer : GoString) (s : State) : Except VecError State :=
  match WithLabelValues ACMEActiveDNSChallenges s.acmeActiveDNSChallenges [issuer] with
  | Except.error e => Except.error e
  | Except.ok m => Except.ok { s with acmeActiveDNSChallenges := Series.Inc m [issuer] }

/-- RemoveActiveACMEDNSChallenge decrements the ACMEActiveDNSChallenges gauge. -/
def RemoveActiveACMEDNSChallenge (issuer : GoString) (s : State) : Except VecError State :=
  match WithLabelValues ACMEActiveDNSChallenges s.acmeActiveDNSChallenges [issuer] with
  | Except.error e => Except.error e
  | Except.ok m => Except.ok { s with acmeActiveDNSChallenges := Series.Dec m [issuer] }

/-- ReportCertEntries sets the CertEntries gauge. -/
def ReportCertEntries (issuertype issuer : GoString) (count : Int) (s : State) :
    Except VecError State :=
  match WithLabelValues CertEntries s.certEntries [issuertype, issuer] with
  | Except.error e => Except.error e
  | Except.ok m => Except.ok { s with certEntries := Series.Set m [issuertype, issuer] (float64 count) }

/-- DeleteCertEntries deletes a CertEntries gauge entry. -/
def DeleteCertEntries (issuertype issuer : GoString) (s : State) : Except VecError State :=
  let r := DeleteLabelValues CertEntries s.certEntries [issuertype, issuer]
  Except.ok { s with certEntries := r.1 }

/-! ## Sequences of calls, well-formed states and the schema of the specification -/

/-- Calls run one after the other, each on the state the previous one left; the
first failure ends the run. -/
def runAll : List (State → Except VecError State) → State → Except VecError State
  | [], s => Except.ok s
  | f :: rest, s =>
    match f s with
    | Except.error e => Except.error e
    | Except.ok s' => runAll rest s'

/-- A call on the active-challenge gauge. -/
inductive ChallengeCall where
  | add (issuer : GoString)
  | remove (issuer : GoString)
deriving DecidableEq, Repr

/-- The accessor a challenge call stands for. -/
def ChallengeCall.run : ChallengeCall → State → Except VecError State
  | ChallengeCall.add issuer => AddActiveACMEDNSChallenge issuer
  | ChallengeCall.remove issuer => RemoveActiveACMEDNSChallenge issuer

/-- The issuer a challenge call names. -/
def ChallengeCall.issuer : ChallengeCall → GoString
  | ChallengeCall.add issuer => issuer
  | ChallengeCall.remove issuer => issuer

/-- Number of `AddActiveACMEDNSChallenge issuer` calls in a sequence. -/
def adds (issuer : GoString) (calls : List ChallengeCall) : Nat :=
  calls.count (ChallengeCall.add issuer)

/-- Number of `RemoveActiveACMEDNSChallenge issuer` calls in a sequence. -/
def removes (issuer : GoString) (calls : List ChallengeCall) : Nat :=
  calls.count (ChallengeCall.remove issuer)

/-- The accessor call of a (server, email) pair. -/
def registrationCall (p : GoString × GoString) : State → Except VecError State :=
  AddACMEAccountRegistration p.1 p.2

/-- A vector is well formed when every tuple it holds a series for passes the
check of the label values: the lookup is the only way a series comes to be. -/
def Series.WellFormed (d : Desc) (m : Series) : Prop :=
  ∀ lvs v, m lvs = some v → validateLabelValues d lvs = Except.ok ()

/-- A state is well formed when its four vectors are. -/
def State.WellFormed (s : State) : Prop :=
  Series.WellFormed ACMEAccountRegistrations s.acmeAccountRegistrations ∧
  Series.WellFormed ACMETotalObtains s.acmeObtains ∧
  Series.WellFormed ACMEActiveDNSChallenges s.acmeActiveDNSChallenges ∧
  Series.WellFormed CertEntries s.certEntries

/-- Name, kind and ordered label keys of a descriptor. -/
def Desc.row (d : Desc) : String × Kind × List String :=
  (d.fqName, d.kind, d.variableLabels)

/-- The metric schema as the table of the specification gives it (section 6). -/
def specSchema : List (String × Kind × List String) :=
  [ ("acme_account_registrations", Kind.counter, ["server", "email"]),
    ("acme_obtains", Kind.counter, ["issuer", "success", "dns_challenges", "renew"]),
    ("acme_active_dns_challenges", Kind.gauge, ["issuer"]),
    ("cert_entries", Kind.gauge, ["issuertype", "issuer"]) ]

/-- Value of a run of decimal digit bytes, most significant first. -/
def digitsValue (cs : GoString) : Nat :=
  cs.foldl (fun a c => 10 * a + (c.val - 48)) 0

/-! ## Lemmas on the metric vectors -/

theorem validateLabelValues_ok (d : Desc) (lvs : List GoString)
    (h : lvs.length = d.variableLabels.length) (hv : ∀ v ∈ lvs, validString v = true) :
    validateLabelValues d lvs = Except.ok () := by
  have hnone : lvs.find? (fun v => !validString v) = none := by
    rw [List.find?_eq_none]
    intro v hmem
    simp [hv v hmem]
  simp [validateLabelValues, h, hnone]

theorem validateLabelValues_invalid (d : Desc) (lvs : List GoString)
    (h : lvs.length = d.variableLabels.length) (hv : ∃ v ∈ lvs, validString v = false) :
    ∃ v, validString v = false ∧
      validateLabelValues d lvs = Except.error (VecError.invalidUTF8 v) := by
  cases hf : lvs.find? (fun v => !validString v) with
  | none =>
    rw [List.find?_eq_none] at hf
    obtain ⟨v, hmem, hbad⟩ := hv
    have := hf v hmem
    simp [hbad] at this
  | some v =>
    have hp := List.find?_some hf
    refine ⟨v, by simpa using hp, ?_⟩
    simp [validateLabelValues, h, hf]

/-- The check never fails on the arity when the arity is right. -/
theorem validateLabelValues_error (d : Desc) (lvs : List GoString)
    (h : lvs.length = d.variableLabels.length) (e : VecError)
    (he : validateLabelValues d lvs = Except.error e) :
    ∃ v, v ∈ lvs ∧ validString v = false ∧ e = VecError.invalidUTF8 v := by
  unfold validateLabelValues at he
  rw [if_neg (by simpa using h)] at he
  cases hf : lvs.find? (fun v => !validString v) with
  | none => rw [hf] at he; cases he
  | some v =>
    rw [hf] at he
    have hp := List.find?_some hf
    have hm := List.mem_of_find?_eq_some hf
    refine ⟨v, hm, by simpa using hp, ?_⟩
    injection he with he
    exact he.symm

theorem WithLabelValues_invalid (d : Desc) (m : Series) (lvs : List GoString) (e : VecError)
    (h : validateLabelValues d lvs = Except.error e) :
    WithLabelValues d m lvs = Except.error e := by
  simp [WithLabelValues, h]

/-- A lookup that passes the check, followed by `Inc`, adds one to the reading. -/
theorem WithLabelValues_Inc (d : Desc) (m : Series) (lvs : List GoString)
    (h : validateLabelValues d lvs = Except.ok ()) :
    ∃ m', WithLabelValues d m lvs = Except.ok m' ∧
      Series.Inc m' lvs = Function.update m lvs (some (reading m lvs + 1)) := by
  unfold WithLabelValues
  rw [h]
  cases hm : m lvs with
  | none =>
    refine ⟨_, rfl, ?_⟩
    simp [Series.Inc, reading, hm]
  | some v =>
    refine ⟨_, rfl, ?_⟩
    simp [Series.Inc, reading, hm]

/-- A lookup that passes the check, followed by `Dec`, takes one from the
reading. -/
theorem WithLabelValues_Dec (d : Desc) (m : Series) (lvs : List GoString)
    (h : validateLabelValues d lvs = Except.ok ()) :
    ∃ m', WithLabelValues d m lvs = Except.ok m' ∧
      Series.Dec m' lvs = Function.update m lvs (some (reading m lvs - 1)) := by
  unfold WithLabelValues
  rw [h]
  cases hm : m lvs with
  | none =>
    refine ⟨_, rfl, ?_⟩
    simp [Series.Dec, reading, hm]
  | some v =>
    refine ⟨_, rfl, ?_⟩
    simp [Series.Dec, reading, hm]

/-- A lookup that passes the check, followed by `Set v`, leaves `v` as the
reading. -/
theorem WithLabelValues_Set (d : Desc) (m : Series) (lvs : List GoString) (v : Int)
    (h : validateLabelValues d lvs = Except.ok ()) :
    ∃ m', WithLabelValues d m lvs = Except.ok m' ∧
      Series.Set m' lvs v = Function.update m lvs (some v) := by
  unfold WithLabelValues
  rw [h]
  cases hm : m lvs with
  | none =>
    refine ⟨_, rfl, ?_⟩
    simp [Series.Set, hm]
  | some w =>
    refine ⟨_, rfl, ?_⟩
    simp [Series.Set, hm]

/-- Deleting a tuple that passes the check leaves no series for it. -/
theorem DeleteLabelValues_fst (d : Desc) (m : Series) (lvs : List GoString)
    (h : validateLabelValues d lvs = Except.ok ()) :
    (DeleteLabelValues d m lvs).1 = Function.update m lvs none := by
  unfold DeleteLabelValues
  rw [h]
  cases hm : m lvs with
  | none =>
    simp only
    funext k
    by_cases hk : k = lvs
    · subst hk; simp [hm]
    · simp [Function.update_noteq hk]
  | some v => rfl

/-- Deleting a tuple that fails the check changes nothing. -/
theorem DeleteLabelValues_invalid (d : Desc) (m : Series) (lvs : List GoString) (e : VecError)
    (h : validateLabelValues d lvs = Except.error e) :
    (DeleteLabelValues d m lvs).1 = m := by
  simp [DeleteLabelValues, h]

theorem WellFormed_update_some (d : Desc) (m : Series) (lvs : List GoString) (v : Int)
    (hm : Series.WellFormed d m) (h : validateLabelValues d lvs = Except.ok ()) :
    Series.WellFormed d (Function.update m lvs (some v)) := by
  intro k w hk
  by_cases hkl : k = lvs
  · rw [hkl]; exact h
  · rw [Function.update_noteq hkl] at hk
    exact hm k w hk

theorem WellFormed_update_none (d : Desc) (m : Series) (lvs : List GoString)
    (hm : Series.WellFormed d m) :
    Series.WellFormed d (Function.update m lvs none) := by
  intro k w hk
  by_cases hkl : k = lvs
  · rw [hkl, Function.update_same] at hk; cases hk
  · rw [Function.update_noteq hkl] at hk
    exact hm k w hk

/-! ## Decimal text of integers -/

theorem digitByte_val (d : Nat) (h : d < 10) : (digitByte d).val = 48 + d := by
  interval_cases d <;> rfl

theorem digitByte_ne_minus (d : Nat) (h : d < 10) : digitByte d ≠ minusByte := by
  interval_cases d <;> decide

theorem formatBits_acc (fuel u : Nat) (acc : GoString) :
    formatBits fuel u acc = formatBits fuel u [] ++ acc := by
  induction fuel generalizing u acc with
  | zero => simp [formatBits]
  | succ n ih =>
    unfold formatBits
    split
    · rw [ih (u / 10) (digitByte (u % 10) :: acc), ih (u / 10) [digitByte (u % 10)]]
      simp
    · simp

/-- Reading the digits back gives the number. -/
theorem digitsValue_formatBits (fuel u : Nat) (h : u < fuel) :
    digitsValue (formatBits fuel u []) = u := by
  induction fuel generalizing u with
  | zero => omega
  | succ n ih =>
    unfold formatBits
    split
    · rename_i h10
      rw [formatBits_acc]
      have hlt : u / 10 < n := by omega
      have := ih (u / 10) hlt
      unfold digitsValue at this ⊢
      rw [List.foldl_append, this]
      simp only [List.foldl_cons, List.foldl_nil]
      rw [digitByte_val _ (Nat.mod_lt _ (by decide))]
      omega
    · rename_i h10
      simp only [digitsValue, List.foldl_cons, List.foldl_nil]
      rw [digitByte_val _ (by omega)]
      omega

/-- Every byte `formatBits` writes is a decimal digit. -/
theorem formatBits_digits (fuel u : Nat) (c : Byte) (hc : c ∈ formatBits fuel u []) :
    ∃ d, d < 10 ∧ c = digitByte d := by
  induction fuel generalizing u c with
  | zero => simp [formatBits] at hc
  | succ n ih =>
    unfold formatBits at hc
    split at hc
    · rw [formatBits_acc] at hc
      rcases List.mem_append.mp hc with h | h
      · exact ih _ _ h
      · exact ⟨u % 10, Nat.mod_lt _ (by decide), by simpa using h⟩
    · exact ⟨u, by omega, by simpa using hc⟩

/-- The decimal text determines the integer. -/
theorem FormatInt_injective (a b : Int) (h : FormatInt a = FormatInt b) : a = b := by
  unfold FormatInt at h
  by_cases ha : a < 0 <;> by_cases hb : b < 0
  · simp only [ha, hb, if_true, List.singleton_append, List.cons.injEq, true_and] at h
    have := congrArg digitsValue h
    rw [digitsValue_formatBits _ _ (Nat.lt_succ_self _),
      digitsValue_formatBits _ _ (Nat.lt_succ_self _)] at this
    omega
  · simp only [ha, hb, if_true, if_false, List.singleton_append, List.nil_append] at h
    have hmem : minusByte ∈ formatBits (b.natAbs + 1) b.natAbs [] := by
      rw [← h]; exact List.mem_cons_self _ _
    obtain ⟨d, hd, hd'⟩ := formatBits_digits _ _ _ hmem
    exact absurd hd'.symm (digitByte_ne_minus d hd)
  · simp only [ha, hb, if_true, if_false, List.singleton_append, List.nil_append] at h
    have hmem : minusByte ∈ formatBits (a.natAbs + 1) a.natAbs [] := by
      rw [h]; exact List.mem_cons_self _ _
    obtain ⟨d, hd, hd'⟩ := formatBits_digits _ _ _ hmem
    exact absurd hd'.symm (digitByte_ne_minus d hd)
  · simp only [ha, hb, if_false, List.nil_append] at h
    have := congrArg digitsValue h
    rw [digitsValue_formatBits _ _ (Nat.lt_succ_self _),
      digitsValue_formatBits _ _ (Nat.lt_succ_self _)] at this
    omega

/-- Text made of ASCII bytes is valid UTF-8. -/
theorem validString_of_ascii (s : GoString) (h : ∀ b ∈ s, b.val < 0x80) :
    validString s = true := by
  unfold validString
  induction s with
  | nil => rfl
  | cons b rest ih =>
    have hb : b.val < 0x80 := h b (List.mem_cons_self _ _)
    have hrest := ih (fun c hc => h c (List.mem_cons_of_mem _ hc))
    have hstep : sequenceTail b rest = some 0 := by
      unfold sequenceTail
      rw [if_pos hb]
    simp only [List.length_cons, validLoop, hstep, List.drop_zero]
    exact hrest

theorem validString_FormatBool (b : Bool) : validString (FormatBool b) = true := by
  cases b <;> decide

theorem validString_FormatInt (i : Int) : validString (FormatInt i) = true := by
  apply validString_of_ascii
  intro b hb
  unfold FormatInt at hb
  rcases List.mem_append.mp hb with h | h
  · split at h
    · have : b = minusByte := by simpa using h
      rw [this]; decide
    · simp at h
  · obtain ⟨d, hd, hd'⟩ := formatBits_digits _ _ _ h
    rw [hd', digitByte_val d hd]
    omega

/-! ## The conversion to binary64 -/

theorem excessBits_small (m : Nat) (h : m < 2 ^ 53) : excessBits m m = 0 := by
  cases m with
  | zero => rfl
  | succ k =>
    unfold excessBits
    rw [if_pos h]

/-- Integers of magnitude up to `2 ^ 53` are converted exactly. -/
theorem float64_exact (n : Int) (h : n.natAbs ≤ 2 ^ 53) : float64 n = n := by
  have key : roundToEven n.natAbs (excessBits n.natAbs n.natAbs) = n.natAbs := by
    rcases Nat.lt_or_eq_of_le h with hlt | heq
    · rw [excessBits_small _ hlt]
      simp [roundToEven, Nat.mod_one]
    · rw [heq]; decide
  unfold float64
  simp only [key]
  split <;> omega

/-! ## What each accessor returns -/

theorem validate_pair (d : Desc) (a b : GoString) (hd : d.variableLabels.length = 2)
    (ha : validString a = true) (hb : validString b = true) :
    validateLabelValues d [a, b] = Except.ok () := by
  apply validateLabelValues_ok
  · simp [hd]
  · intro v hv
    simp only [List.mem_cons, List.mem_singleton, List.not_mem_nil, or_false] at hv
    rcases hv with h | h <;> rw [h] <;> assumption

theorem validate_pair_invalid (d : Desc) (a b : GoString) (hd : d.variableLabels.length = 2)
    (h : ¬ (validString a = true ∧ validString b = true)) :
    ∃ v, validString v = false ∧
      validateLabelValues d [a, b] = Except.error (VecError.invalidUTF8 v) := by
  apply validateLabelValues_invalid
  · simp [hd]
  · by_cases ha : validString a = true
    · have hb : validString b = false := by
        cases hvb : validString b with
        | false => rfl
        | true => exact absurd ⟨ha, hvb⟩ h
      exact ⟨b, by simp, hb⟩
    · exact ⟨a, by simp, by simpa using ha⟩

theorem validate_single (d : Desc) (a : GoString) (hd : d.variableLabels.length = 1)
    (ha : validString a = true) :
    validateLabelValues d [a] = Except.ok () := by
  apply validateLabelValues_ok
  · simp [hd]
  · intro v hv
    simp only [List.mem_singleton] at hv
    rw [hv]; exact ha

theorem validate_single_invalid (d : Desc) (a : GoString) (hd : d.variableLabels.length = 1)
    (h : ¬ validString a = true) :
    ∃ v, validString v = false ∧
      validateLabelValues d [a] = Except.error (VecError.invalidUTF8 v) := by
  apply validateLabelValues_invalid
  · simp [hd]
  · exact ⟨a, by simp, by simpa using h⟩

theorem validate_obtain (issuer : GoString) (success : Bool) (count : Int) (renew : Bool)
    (h : validString issuer = true) :
    validateLabelValues ACMETotalObtains
      [issuer, FormatBool success, FormatInt count, FormatBool renew] = Except.ok () := by
  apply validateLabelValues_ok
  · rfl
  · intro v hv
    simp only [List.mem_cons, List.mem_singleton, List.not_mem_nil, or_false] at hv
    rcases hv with h1 | h1 | h1 | h1 <;> rw [h1]
    · exact h
    · exact validString_FormatBool _
    · exact validString_FormatInt _
    · exact validString_FormatBool _

theorem validate_obtain_invalid (issuer : GoString) (success : Bool) (count : Int)
    (renew : Bool) (h : ¬ validString issuer = true) :
    ∃ v, validString v = false ∧
      validateLabelValues ACMETotalObtains
        [issuer, FormatBool success, FormatInt count, FormatBool renew] =
          Except.error (VecError.invalidUTF8 v) := by
  apply validateLabelValues_invalid
  · rfl
  · exact ⟨issuer, by simp, by simpa using h⟩

theorem AddACMEAccountRegistration_eq (server email : GoString) (s : State)
    (hs : validString server = true) (he : validString email = true) :
    AddACMEAccountRegistration server email s =
      Except.ok { s with acmeAccountRegistrations :=
        (Function.update s.acmeAccountRegistrations [server, email]
          (some (reading s.acmeAccountRegistrations [server, email] + 1))) } := by
  obtain ⟨m', h1, h2⟩ :=
    WithLabelValues_Inc ACMEAccountRegistrations s.acmeAccountRegistrations [server, email]
      (validate_pair _ _ _ (by rfl) hs he)
  simp only [AddACMEAccountRegistration, h1, h2]

theorem AddACMEAccountRegistration_invalid (server email : GoString) (s : State)
    (h : ¬ (validString server = true ∧ validString email = true)) :
    ∃ v, validString v = false ∧
      AddACMEAccountRegistration server email s = Except.error (VecError.invalidUTF8 v) := by
  obtain ⟨v, hv, he⟩ := validate_pair_invalid ACMEAccountRegistrations server email (by rfl) h
  refine ⟨v, hv, ?_⟩
  simp only [AddACMEAccountRegistration,
    WithLabelValues_invalid _ s.acmeAccountRegistrations _ _ he]

theorem AddACMEObtain_pos (issuer : GoString) (success : Bool) (count : Int) (renew : Bool)
    (s : State) (h : 0 < count) (hv : validString issuer = true) :
    AddACMEObtain issuer success count renew s =
      Except.ok { s with acmeObtains :=
        (Function.update s.acmeObtains
          [issuer, FormatBool success, FormatInt count, FormatBool renew]
          (some (reading s.acmeObtains
            [issuer, FormatBool success, FormatInt count, FormatBool renew] + 1))) } := by
  obtain ⟨m', h1, h2⟩ :=
    WithLabelValues_Inc ACMETotalObtains s.acmeObtains
      [issuer, FormatBool success, FormatInt count, FormatBool renew]
      (validate_obtain issuer success count renew hv)
  have hc : count > 0 := h
  simp only [AddACMEObtain, hc, if_true, h1, h2]

theorem AddACMEObtain_invalid (issuer : GoString) (success : Bool) (count : Int) (renew : Bool)
    (s : State) (h : 0 < count) (hv : ¬ validString issuer = true) :
    ∃ v, validString v = false ∧
      AddACMEObtain issuer success count renew s = Except.error (VecError.invalidUTF8 v) := by
  obtain ⟨v, hbad, he⟩ := validate_obtain_invalid issuer success count renew hv
  refine ⟨v, hbad, ?_⟩
  have hc : count > 0 := h
  simp only [AddACMEObtain, hc, if_true, WithLabelValues_invalid _ s.acmeObtains _ _ he]

theorem AddACMEObtain_nonpos (issuer : GoString) (success : Bool) (count : Int) (renew : Bool)
    (s : State) (h : count ≤ 0) :
    AddACMEObtain issuer success count renew s = Except.ok s := by
  have hc : ¬ count > 0 := not_lt.mpr h
  simp only [AddACMEObtain, hc, if_false]

theorem AddActiveACMEDNSChallenge_eq (issuer : GoString) (s : State)
    (hv : validString issuer = true) :
    AddActiveACMEDNSChallenge issuer s =
      Except.ok { s with acmeActiveDNSChallenges :=
        (Function.update s.acmeActiveDNSChallenges [issuer]
          (some (reading s.acmeActiveDNSChallenges [issuer] + 1))) } := by
  obtain ⟨m', h1, h2⟩ :=
    WithLabelValues_Inc ACMEActiveDNSChallenges s.acmeActiveDNSChallenges [issuer]
      (validate_single _ _ (by rfl) hv)
  simp only [AddActiveACMEDNSChallenge, h1, h2]

theorem AddActiveACMEDNSChallenge_invalid (issuer : GoString) (s : State)
    (hv : ¬ validString issuer = true) :
    ∃ v, validString v = false ∧
      AddActiveACMEDNSChallenge issuer s = Except.error (VecError.invalidUTF8 v) := by
  obtain ⟨v, hbad, he⟩ := validate_single_invalid ACMEActiveDNSChallenges issuer (by rfl) hv
  refine ⟨v, hbad, ?_⟩
  simp only [AddActiveACMEDNSChallenge,
    WithLabelValues_invalid _ s.acmeActiveDNSChallenges _ _ he]

theorem RemoveActiveACMEDNSChallenge_eq (issuer : GoString) (s : State)
    (hv : validString issuer = true) :
    RemoveActiveACMEDNSChallenge issuer s =
      Except.ok { s with acmeActiveDNSChallenges :=
        (Function.update s.acmeActiveDNSChallenges [issuer]
          (some (reading s.acmeActiveDNSChallenges [issuer] - 1))) } := by
  obtain ⟨m', h1, h2⟩ :=
    WithLabelValues_Dec ACMEActiveDNSChallenges s.acmeActiveDNSChallenges [issuer]
      (validate_single _ _ (by rfl) hv)
  simp only [RemoveActiveACMEDNSChallenge, h1, h2]

theorem RemoveActiveACMEDNSChallenge_invalid (issuer : GoString) (s : State)
    (hv : ¬ validString issuer = true) :
    ∃ v, validString v = false ∧
      RemoveActiveACMEDNSChallenge issuer s = Except.error (VecError.invalidUTF8 v) := by
  obtain ⟨v, hbad, he⟩ := validate_single_invalid ACMEActiveDNSChallenges issuer (by rfl) hv
  refine ⟨v, hbad, ?_⟩
  simp only [RemoveActiveACMEDNSChallenge,
    WithLabelValues_invalid _ s.acmeActiveDNSChallenges _ _ he]

theorem ReportCertEntries_eq (issuertype issuer : GoString) (count : Int) (s : State)
    (ht : validString issuertype = true) (hi : validString issuer = true) :
    ReportCertEntries issuertype issuer count s =
      Except.ok { s with certEntries :=
        (Function.update s.certEntries [issuertype, issuer] (some (float64 count))) } := by
  obtain ⟨m', h1, h2⟩ :=
    WithLabelValues_Set CertEntries s.certEntries [issuertype, issuer] (float64 count)
      (validate_pair _ _ _ (by rfl) ht hi)
  simp only [ReportCertEntries, h1, h2]

theorem ReportCertEntries_invalid (issuertype issuer : GoString) (count : Int) (s : State)
    (h : ¬ (validString issuertype = true ∧ validString issuer = true)) :
    ∃ v, validString v = false ∧
      ReportCertEntries issuertype issuer count s = Except.error (VecError.invalidUTF8 v) := by
  obtain ⟨v, hv, he⟩ := validate_pair_invalid CertEntries issuertype issuer (by rfl) h
  refine ⟨v, hv, ?_⟩
  simp only [ReportCertEntries, WithLabelValues_invalid _ s.certEntries _ _ he]

theorem DeleteCertEntries_eq (issuertype issuer : GoString) (s : State)
    (ht : validString issuertype = true) (hi : validString issuer = true) :
    DeleteCertEntries issuertype issuer s =
      Except.ok { s with certEntries :=
        (Function.update s.certEntries [issuertype, issuer] none) } := by
  simp only [DeleteCertEntries, DeleteLabelValues_fst CertEntries s.certEntries
    [issuertype, issuer] (validate_pair _ _ _ (by rfl) ht hi)]

theorem DeleteCertEntries_invalid (issuertype issuer : GoString) (s : State)
    (h : ¬ (validString issuertype = true ∧ validString issuer = true)) :
    DeleteCertEntries issuertype issuer s = Except.ok s := by
  obtain ⟨v, _, he⟩ := validate_pair_invalid CertEntries issuertype issuer (by rfl) h
  simp only [DeleteCertEntries, DeleteLabelValues_invalid CertEntries s.certEntries
    [issuertype, issuer] _ he]

/-! ## Well-formed states -/

theorem State.fresh_wellFormed : State.fresh.WellFormed := by
  refine ⟨?_, ?_, ?_, ?_⟩ <;> intro lvs v h <;> cases h

theorem AddACMEAccountRegistration_wellFormed (server email : GoString) (s s' : State)
    (hs : s.WellFormed) (h : AddACMEAccountRegistration server email s = Except.ok s') :
    s'.WellFormed := by
  by_cases hv : validString server = true ∧ validString email = true
  · rw [AddACMEAccountRegistration_eq server email s hv.1 hv.2] at h
    injection h with h
    subst h
    exact ⟨WellFormed_update_some _ _ _ _ hs.1 (validate_pair _ _ _ (by rfl) hv.1 hv.2),
      hs.2.1, hs.2.2.1, hs.2.2.2⟩
  · obtain ⟨v, _, he⟩ := AddACMEAccountRegistration_invalid server email s hv
    rw [he] at h; cases h

theorem AddACMEObtain_wellFormed (issuer : GoString) (success : Bool) (count : Int)
    (renew : Bool) (s s' : State) (hs : s.WellFormed)
    (h : AddACMEObtain issuer success count renew s = Except.ok s') : s'.WellFormed := by
  by_cases hc : 0 < count
  · by_cases hv : validString issuer = true
    · rw [AddACMEObtain_pos issuer success count renew s hc hv] at h
      injection h with h
      subst h
      exact ⟨hs.1, WellFormed_update_some _ _ _ _ hs.2.1
        (validate_obtain issuer success count renew hv), hs.2.2.1, hs.2.2.2⟩
    · obtain ⟨v, _, he⟩ := AddACMEObtain_invalid issuer success count renew s hc hv
      rw [he] at h; cases h
  · rw [AddACMEObtain_nonpos issuer success count renew s (not_lt.mp hc)] at h
    injection h with h
    subst h
    exact hs

theorem AddActiveACMEDNSChallenge_wellFormed (issuer : GoString) (s s' : State)
    (hs : s.WellFormed) (h : AddActiveACMEDNSChallenge issuer s = Except.ok s') :
    s'.WellFormed := by
  by_cases hv : validString issuer = true
  · rw [AddActiveACMEDNSChallenge_eq issuer s hv] at h
    injection h with h
    subst h
    exact ⟨hs.1, hs.2.1, WellFormed_update_some _ _ _ _ hs.2.2.1
      (validate_single _ _ (by rfl) hv), hs.2.2.2⟩
  · obtain ⟨v, _, he⟩ := AddActiveACMEDNSChallenge_invalid issuer s hv
    rw [he] at h; cases h

theorem RemoveActiveACMEDNSChallenge_wellFormed (issuer : GoString) (s s' : State)
    (hs : s.WellFormed) (h : RemoveActiveACMEDNSChallenge issuer s = Except.ok s') :
    s'.WellFormed := by
  by_cases hv : validString issuer = true
  · rw [RemoveActiveACMEDNSChallenge_eq issuer s hv] at h
    injection h with h
    subst h
    exact ⟨hs.1, hs.2.1, WellFormed_update_some _ _ _ _ hs.2.2.1
      (validate_single _ _ (by rfl) hv), hs.2.2.2⟩
  · obtain ⟨v, _, he⟩ := RemoveActiveACMEDNSChallenge_invalid issuer s hv
    rw [he] at h; cases h

theorem ReportCertEntries_wellFormed (issuertype issuer : GoString) (count : Int)
    (s s' : State) (hs : s.WellFormed)
    (h : ReportCertEntries issuertype issuer count s = Except.ok s') : s'.WellFormed := by
  by_cases hv : validString issuertype = true ∧ validString issuer = true
  · rw [ReportCertEntries_eq issuertype issuer count s hv.1 hv.2] at h
    injection h with h
    subst h
    exact ⟨hs.1, hs.2.1, hs.2.2.1, WellFormed_update_some _ _ _ _ hs.2.2.2
      (validate_pair _ _ _ (by rfl) hv.1 hv.2)⟩
  · obtain ⟨v, _, he⟩ := ReportCertEntries_invalid issuertype issuer count s hv
    rw [he] at h; cases h

theorem DeleteCertEntries_wellFormed (issuertype issuer : GoString) (s s' : State)
    (hs : s.WellFormed) (h : DeleteCertEntries issuertype issuer s = Except.ok s') :
    s'.WellFormed := by
  by_cases hv : validString issuertype = true ∧ validString issuer = true
  · rw [DeleteCertEntries_eq issuertype issuer s hv.1 hv.2] at h
    injection h with h
    subst h
    exact ⟨hs.1, hs.2.1, hs.2.2.1, WellFormed_update_none _ _ _ hs.2.2.2⟩
  · rw [DeleteCertEntries_invalid issuertype issuer s hv] at h
    injection h with h
    subst h
    exact hs

/-- A well-formed state holds no cert_entries series for a pair with a label
value that is not valid UTF-8. -/
theorem WellFormed_certEntries_invalid (issuertype issuer : GoString) (s : State)
    (hs : s.WellFormed)
    (h : ¬ (validString issuertype = true ∧ validString issuer = true)) :
    s.certEntries [issuertype, issuer] = none := by
  cases hm : s.certEntries [issuertype, issuer] with
  | none => rfl
  | some v =>
    have hok := hs.2.2.2 _ v hm
    obtain ⟨w, _, he⟩ := validate_pair_invalid CertEntries issuertype issuer (by rfl) h
    rw [he] at hok
    cases hok

/-! ## Lemmas on sequences of calls -/

theorem runAll_append (fs gs : List (State → Except VecError State)) (s : State) :
    runAll (fs ++ gs) s =
      match runAll fs s with
      | Except.error e => Except.error e
      | Except.ok s' => runAll gs s' := by
  induction fs generalizing s with
  | nil => rfl
  | cons f rest ih =>
    simp only [List.cons_append, runAll]
    cases f s with
    | error e => rfl
    | ok s' => exact ih s'

/-- A run of registration calls with valid labels from any state: each reading
grows by the number of calls with its pair, and a pair not called keeps its
series. -/
theorem runAll_registrations (calls : List (GoString × GoString))
    (hv : ∀ p ∈ calls, validString p.1 = true ∧ validString p.2 = true) (s : State) :
    ∃ s', runAll (calls.map registrationCall) s = Except.ok s' ∧
      (∀ p : GoString × GoString, reading s'.acmeAccountRegistrations [p.1, p.2] =
        reading s.acmeAccountRegistrations [p.1, p.2] + calls.count p) ∧
      (∀ p : GoString × GoString, p ∉ calls →
        s'.acmeAccountRegistrations [p.1, p.2] = s.acmeAccountRegistrations [p.1, p.2]) := by
  induction calls generalizing s with
  | nil => exact ⟨s, rfl, by simp, by simp⟩
  | cons c rest ih =>
    obtain ⟨server, email⟩ := c
    have hc := hv (server, email) (List.mem_cons_self _ _)
    simp only [List.map_cons, runAll, registrationCall,
      AddACMEAccountRegistration_eq server email s hc.1 hc.2]
    obtain ⟨s', hrun, hcount, hnone⟩ := ih (fun p hp => hv p (List.mem_cons_of_mem _ hp))
      { s with acmeAccountRegistrations :=
        (Function.update s.acmeAccountRegistrations [server, email]
          (some (reading s.acmeAccountRegistrations [server, email] + 1))) }
    refine ⟨s', hrun, ?_, ?_⟩
    · intro p
      rw [hcount p]
      by_cases hp : p = (server, email)
      · subst hp
        simp [reading, Function.update_same, List.count_cons_self]
        omega
      · have hne : [p.1, p.2] ≠ [server, email] := by
          intro h
          apply hp
          simp only [List.cons.injEq, and_true] at h
          exact Prod.ext h.1 h.2
        have hne' : (server, email) ≠ p := fun h => hp h.symm
        simp [reading, Function.update_noteq hne, List.count_cons, hne']
    · intro p hp
      rw [hnone p (fun h => hp (List.mem_cons_of_mem _ h))]
      have hne : [p.1, p.2] ≠ [server, email] := by
        intro h
        apply hp
        simp only [List.cons.injEq, and_true] at h
        have : p = (server, email) := Prod.ext h.1 h.2
        rw [this]
        exact List.mem_cons_self _ _
      simp [Function.update_noteq hne]

/-- A run of challenge calls with valid issuers from any state: the reading of
an issuer moves by its adds minus its removes. -/
theorem runAll_challenges (issuer : GoString) (calls : List ChallengeCall)
    (hv : ∀ c ∈ calls, validString c.issuer = true) (s : State) :
    ∃ s', runAll (calls.map ChallengeCall.run) s = Except.ok s' ∧
      reading s'.acmeActiveDNSChallenges [issuer] =
        reading s.acmeActiveDNSChallenges [issuer] +
          (adds issuer calls : Int) - (removes issuer calls : Int) := by
  induction calls generalizing s with
  | nil => exact ⟨s, rfl, by simp [adds, removes]⟩
  | cons c rest ih =>
    have hc := hv c (List.mem_cons_self _ _)
    have hrest : ∀ c ∈ rest, validString c.issuer = true :=
      fun c' h => hv c' (List.mem_cons_of_mem _ h)
    cases c with
    | add i =>
      simp only [List.map_cons, runAll, ChallengeCall.run, AddActiveACMEDNSChallenge_eq i s hc]
      obtain ⟨s', hrun, hread⟩ := ih hrest
        { s with acmeActiveDNSChallenges :=
          (Function.update s.acmeActiveDNSChallenges [i]
            (some (reading s.acmeActiveDNSChallenges [i] + 1))) }
      refine ⟨s', hrun, ?_⟩
      rw [hread]
      by_cases hi : i = issuer
      · subst hi
        simp [reading, adds, removes, Function.update_same, List.count_cons]
        omega
      · have hne : [issuer] ≠ [i] := by
          intro h
          simp only [List.cons.injEq, and_true] at h
          exact hi h.symm
        simp [reading, adds, removes, Function.update_noteq hne, List.count_cons, hi]
    | remove i =>
      simp only [List.map_cons, runAll, ChallengeCall.run,
        RemoveActiveACMEDNSChallenge_eq i s hc]
      obtain ⟨s', hrun, hread⟩ := ih hrest
        { s with acmeActiveDNSChallenges :=
          (Function.update s.acmeActiveDNSChallenges [i]
            (some (reading s.acmeActiveDNSChallenges [i] - 1))) }
      refine ⟨s', hrun, ?_⟩
      rw [hread]
      by_cases hi : i = issuer
      · subst hi
        simp [reading, adds, removes, Function.update_same, List.count_cons]
        omega
      · have hne : [issuer] ≠ [i] := by
          intro h
          simp only [List.cons.injEq, and_true] at h
          exact hi h.symm
        simp [reading, adds, removes, Function.update_noteq hne, List.count_cons, hi]

/-- Adding one to a reading lowers no reading of the vector. -/
theorem reading_le_update_succ (m : Series) (k lvs : List GoString) :
    reading m lvs ≤ reading (Function.update m k (some (reading m k + 1))) lvs := by
  by_cases h : lvs = k
  · subst h
    simp [reading]
  · simp [reading, Function.update_noteq h]

/-! ## The claims -/

/-- Counterexample to C1 as stated: with the issuer "\xff", which is not valid
UTF-8, and count 1 the lookup panics: `AddACMEObtain` returns no state and
raises no series. -/
theorem AddACMEObtain_invalid_issuer_panics :
    (0 : Int) < 1 ∧ validString [0xff] = false ∧
    AddACMEObtain [0xff] true 1 false State.fresh =
      Except.error (VecError.invalidUTF8 [0xff]) ∧
    ¬ ∃ s', AddACMEObtain [0xff] true 1 false State.fresh = Except.ok s' := by
  have h : AddACMEObtain [0xff] true 1 false State.fresh =
      Except.error (VecError.invalidUTF8 [0xff]) := by rfl
  refine ⟨by decide, by decide, h, ?_⟩
  rintro ⟨s', hs⟩
  rw [h] at hs
  cases hs

/-- C1 (amended): for every issuer that is valid UTF-8, every success, renew and
every count > 0, `AddACMEObtain` succeeds and raises by exactly 1 the reading of
one series of acme_obtains, the one labelled (issuer, FormatBool success,
decimal text of count, FormatBool renew), whatever the magnitude of count; every
other series of that counter is left as it was. -/
theorem AddACMEObtain_increments_one_series (issuer : GoString) (success : Bool) (count : Int)
    (renew : Bool) (s : State) (h : 0 < count) (hv : validString issuer = true) :
    ∃ s', AddACMEObtain issuer success count renew s = Except.ok s' ∧
      s'.acmeObtains [issuer, FormatBool success, FormatInt count, FormatBool renew] =
        some (reading s.acmeObtains
          [issuer, FormatBool success, FormatInt count, FormatBool renew] + 1) ∧
      reading s'.acmeObtains [issuer, FormatBool success, FormatInt count, FormatBool renew] =
        reading s.acmeObtains
          [issuer, FormatBool success, FormatInt count, FormatBool renew] + 1 ∧
      (∀ lvs, lvs ≠ [issuer, FormatBool success, FormatInt count, FormatBool renew] →
        s'.acmeObtains lvs = s.acmeObtains lvs) ∧
      digitsValue (FormatInt count) = count := by
  refine ⟨_, AddACMEObtain_pos issuer success count renew s h hv, ?_, ?_, ?_, ?_⟩
  · simp
  · simp [reading]
  · intro lvs hl
    simp [Function.update_noteq hl]
  · have hneg : ¬ count < 0 := by omega
    simp only [FormatInt, hneg, if_false, List.nil_append]
    rw [digitsValue_formatBits _ _ (Nat.lt_succ_self _)]
    omega

/-- Witness of C1 (amended): a call with count 250 on the fresh state leaves
reading 1 on the series ("letsencrypt", "true", "250", "false"). -/
theorem AddACMEObtain_increments_one_series_witness :
    (0 : Int) < 250 ∧ validString (GoString.ofString "letsencrypt") = true ∧
    ∃ s', AddACMEObtain (GoString.ofString "letsencrypt") true 250 false State.fresh =
        Except.ok s' ∧
      s'.acmeObtains [GoString.ofString "letsencrypt", GoString.ofString "true",
        GoString.ofString "250", GoString.ofString "false"] = some 1 ∧
      reading s'.acmeObtains [GoString.ofString "letsencrypt", GoString.ofString "true",
        GoString.ofString "250", GoString.ofString "false"] = 0 + 1 ∧
      (∀ lvs, lvs ≠ [GoString.ofString "letsencrypt", GoString.ofString "true",
          GoString.ofString "250", GoString.ofString "false"] →
        s'.acmeObtains lvs = State.fresh.acmeObtains lvs) ∧
      ((digitsValue (GoString.ofString "250") : Nat) : Int) = 250 :=
  ⟨by decide, by decide,
    AddACMEObtain_increments_one_series (GoString.ofString "letsencrypt") true 250 false
      State.fresh (by decide) (by decide)⟩

/-- C2: for every issuer, success, renew and every count <= 0, `AddACMEObtain`
returns the state it was given, unchanged as a whole (no reading changes, no
series appears), and so does any number of repetitions of the call. -/
theorem AddACMEObtain_nonpositive_noop (issuer : GoString) (success : Bool) (count : Int)
    (renew : Bool) (s : State) (h : count ≤ 0) :
    AddACMEObtain issuer success count renew s = Except.ok s ∧
    ∀ n : Nat, runAll (List.replicate n (AddACMEObtain issuer success count renew)) s =
      Except.ok s := by
  have h1 := AddACMEObtain_nonpos issuer success count renew s h
  refine ⟨h1, ?_⟩
  intro n
  induction n with
  | zero => rfl
  | succ k ih => simp only [List.replicate_succ, runAll, h1, ih]

/-- Witness of C2: count -7, on the fresh state, with an issuer that is not
valid UTF-8 (the lookup that would reject it is not reached). -/
theorem AddACMEObtain_nonpositive_noop_witness :
    (-7 : Int) ≤ 0 ∧
    AddACMEObtain [0xff] false (-7) true State.fresh = Except.ok State.fresh ∧
    ∀ n : Nat, runAll (List.replicate n (AddACMEObtain [0xff] false (-7) true))
      State.fresh = Except.ok State.fresh :=
  ⟨by decide, AddACMEObtain_nonpositive_noop [0xff] false (-7) true State.fresh
    (by decide)⟩

/-- Counterexample to C3 as stated: the sequence of the one call
`AddACMEAccountRegistration("\xff", "a@example.org")` panics in the lookup; it
leaves no state in which the pair reads 1. -/
theorem registration_invalid_server_panics :
    validString [0xff] = false ∧
    runAll ([(([0xff] : GoString), GoString.ofString "a@example.org")].map registrationCall)
      State.fresh = Except.error (VecError.invalidUTF8 [0xff]) ∧
    ¬ ∃ s', runAll ([(([0xff] : GoString), GoString.ofString "a@example.org")].map
      registrationCall) State.fresh = Except.ok s' := by
  have h : runAll ([(([0xff] : GoString), GoString.ofString "a@example.org")].map
      registrationCall) State.fresh = Except.error (VecError.invalidUTF8 [0xff]) := by rfl
  refine ⟨by decide, h, ?_⟩
  rintro ⟨s', hs⟩
  rw [h] at hs
  cases hs

/-- C3 (amended): from the fresh state, every finite sequence of
`AddACMEAccountRegistration` calls whose servers and emails are valid UTF-8
succeeds, and afterwards the reading of acme_account_registrations for every
(server, email) pair is the number of calls made with exactly that pair; a pair
never used has no series. -/
theorem registrations_count_calls (calls : List (GoString × GoString))
    (hv : ∀ p ∈ calls, validString p.1 = true ∧ validString p.2 = true) :
    ∃ s', runAll (calls.map registrationCall) State.fresh = Except.ok s' ∧
      ∀ server email : GoString,
        reading s'.acmeAccountRegistrations [server, email] = (calls.count (server, email) : Int) ∧
        ((server, email) ∉ calls →
          s'.acmeAccountRegistrations [server, email] = none ∧
          reading s'.acmeAccountRegistrations [server, email] = 0) := by
  obtain ⟨s', hrun, hcount, hnone⟩ := runAll_registrations calls hv State.fresh
  refine ⟨s', hrun, ?_⟩
  intro server email
  have hc := hcount (server, email)
  have hfresh : reading State.fresh.acmeAccountRegistrations [server, email] = 0 := rfl
  simp only [hfresh, zero_add] at hc
  refine ⟨hc, ?_⟩
  intro hp
  refine ⟨?_, ?_⟩
  · rw [hnone (server, email) hp]; rfl
  · rw [hc, List.count_eq_zero_of_not_mem hp]; rfl

/-- Witness of C3 (amended): three calls, two of them with the same pair. -/
theorem registrations_count_calls_witness :
    (∀ p ∈ [(GoString.ofString "acme-v02", GoString.ofString "a@example.org"),
        (GoString.ofString "staging", GoString.ofString "b@example.org"),
        (GoString.ofString "acme-v02", GoString.ofString "a@example.org")],
      validString p.1 = true ∧ validString p.2 = true) ∧
    ∃ s', runAll ([(GoString.ofString "acme-v02", GoString.ofString "a@example.org"),
        (GoString.ofString "staging", GoString.ofString "b@example.org"),
        (GoString.ofString "acme-v02", GoString.ofString "a@example.org")].map
          registrationCall) State.fresh = Except.ok s' ∧
      reading s'.acmeAccountRegistrations
        [GoString.ofString "acme-v02", GoString.ofString "a@example.org"] = 2 ∧
      reading s'.acmeAccountRegistrations
        [GoString.ofString "staging", GoString.ofString "b@example.org"] = 1 ∧
      s'.acmeAccountRegistrations
        [GoString.ofString "staging", GoString.ofString "a@example.org"] = none := by
  have hv : ∀ p ∈ [(GoString.ofString "acme-v02", GoString.ofString "a@example.org"),
      (GoString.ofString "staging", GoString.ofString "b@example.org"),
      (GoString.ofString "acme-v02", GoString.ofString "a@example.org")],
      validString p.1 = true ∧ validString p.2 = true := by decide
  obtain ⟨s', hrun, h⟩ := registrations_count_calls
    [(GoString.ofString "acme-v02", GoString.ofString "a@example.org"),
      (GoString.ofString "staging", GoString.ofString "b@example.org"),
      (GoString.ofString "acme-v02", GoString.ofString "a@example.org")] hv
  refine ⟨hv, s', hrun, ?_, ?_, ?_⟩
  · rw [(h (GoString.ofString "acme-v02") (GoString.ofString "a@example.org")).1]; decide
  · rw [(h (GoString.ofString "staging") (GoString.ofString "b@example.org")).1]; decide
  · exact ((h (GoString.ofString "staging") (GoString.ofString "a@example.org")).2
      (by decide)).1

/-- Counterexample to C4 as stated: with the issuer "\xc3\x28", which is not
valid UTF-8, `AddActiveACMEDNSChallenge` and `RemoveActiveACMEDNSChallenge`
panic in the lookup: the sequence of one add leaves no state in which the
issuer reads 1. -/
theorem challenge_invalid_issuer_panics :
    validString [0xc3, 0x28] = false ∧
    runAll ([ChallengeCall.add [0xc3, 0x28]].map ChallengeCall.run) State.fresh =
      Except.error (VecError.invalidUTF8 [0xc3, 0x28]) ∧
    runAll ([ChallengeCall.remove [0xc3, 0x28]].map ChallengeCall.run) State.fresh =
      Except.error (VecError.invalidUTF8 [0xc3, 0x28]) ∧
    adds [0xc3, 0x28] [ChallengeCall.add [0xc3, 0x28]] = 1 ∧
    ¬ ∃ s', runAll ([ChallengeCall.add [0xc3, 0x28]].map ChallengeCall.run) State.fresh =
      Except.ok s' := by
  have h : runAll ([ChallengeCall.add [0xc3, 0x28]].map ChallengeCall.run) State.fresh =
      Except.error (VecError.invalidUTF8 [0xc3, 0x28]) := by rfl
  refine ⟨by decide, h, by rfl, by decide, ?_⟩
  rintro ⟨s', hs⟩
  rw [h] at hs
  cases hs

/-- C4 (amended): from the fresh state, every finite interleaving of
`AddActiveACMEDNSChallenge` and `RemoveActiveACMEDNSChallenge` calls whose
issuers are valid UTF-8 succeeds and leaves, for every issuer, the reading
(adds for that issuer) minus (removes for that issuer); and when in every
prefix of the sequence the removes of the issuer do not outnumber its adds, the
reading of the issuer is not negative at any point of the sequence. -/
theorem challenge_gauge_settles (issuer : GoString) (calls : List ChallengeCall)
    (hv : ∀ c ∈ calls, validString c.issuer = true) :
    (∃ s', runAll (calls.map ChallengeCall.run) State.fresh = Except.ok s' ∧
      reading s'.acmeActiveDNSChallenges [issuer] =
        (adds issuer calls : Int) - (removes issuer calls : Int)) ∧
    ((∀ p, p <+: calls → removes issuer p ≤ adds issuer p) →
      ∀ p t, p ++ t = calls →
        ∃ sp, runAll (p.map ChallengeCall.run) State.fresh = Except.ok sp ∧
          runAll (calls.map ChallengeCall.run) State.fresh =
            runAll (t.map ChallengeCall.run) sp ∧
          0 ≤ reading sp.acmeActiveDNSChallenges [issuer]) := by
  have hfresh : reading State.fresh.acmeActiveDNSChallenges [issuer] = 0 := rfl
  constructor
  · obtain ⟨s', hrun, hread⟩ := runAll_challenges issuer calls hv State.fresh
    exact ⟨s', hrun, by rw [hread, hfresh]; ring⟩
  · intro hbal p t hpt
    have hvp : ∀ c ∈ p, validString c.issuer = true := by
      intro c hc
      apply hv
      rw [← hpt]
      exact List.mem_append_left _ hc
    obtain ⟨sp, hrun, hread⟩ := runAll_challenges issuer p hvp State.fresh
    refine ⟨sp, hrun, ?_, ?_⟩
    · rw [← hpt, List.map_append, runAll_append, hrun]
    · have := hbal p ⟨t, hpt⟩
      rw [hread, hfresh]
      omega

/-- Witness of C4 (amended): four calls for two issuers, balanced for issuer
"a". -/
theorem challenge_gauge_settles_witness :
    (∀ c ∈ [ChallengeCall.add (GoString.ofString "a"),
        ChallengeCall.add (GoString.ofString "b"),
        ChallengeCall.remove (GoString.ofString "a"),
        ChallengeCall.add (GoString.ofString "a")], validString c.issuer = true) ∧
    (∀ p, p <+: [ChallengeCall.add (GoString.ofString "a"),
        ChallengeCall.add (GoString.ofString "b"),
        ChallengeCall.remove (GoString.ofString "a"),
        ChallengeCall.add (GoString.ofString "a")] →
      removes (GoString.ofString "a") p ≤ adds (GoString.ofString "a") p) ∧
    (∃ s', runAll ([ChallengeCall.add (GoString.ofString "a"),
        ChallengeCall.add (GoString.ofString "b"),
        ChallengeCall.remove (GoString.ofString "a"),
        ChallengeCall.add (GoString.ofString "a")].map ChallengeCall.run) State.fresh =
          Except.ok s' ∧
      reading s'.acmeActiveDNSChallenges [GoString.ofString "a"] = 1) ∧
    ∃ sp, runAll ([ChallengeCall.add (GoString.ofString "a"),
        ChallengeCall.add (GoString.ofString "b"),
        ChallengeCall.remove (GoString.ofString "a")].map ChallengeCall.run) State.fresh =
          Except.ok sp ∧
      0 ≤ reading sp.acmeActiveDNSChallenges [GoString.ofString "a"] := by
  have hv : ∀ c ∈ [ChallengeCall.add (GoString.ofString "a"),
      ChallengeCall.add (GoString.ofString "b"),
      ChallengeCall.remove (GoString.ofString "a"),
      ChallengeCall.add (GoString.ofString "a")], validString c.issuer = true := by decide
  have hbal : ∀ p, p <+: [ChallengeCall.add (GoString.ofString "a"),
      ChallengeCall.add (GoString.ofString "b"),
      ChallengeCall.remove (GoString.ofString "a"),
      ChallengeCall.add (GoString.ofString "a")] →
      removes (GoString.ofString "a") p ≤ adds (GoString.ofString "a") p := by
    intro p hp
    have hmem := (List.mem_inits p _).mpr hp
    clear hp
    revert p
    decide
  have hthm := challenge_gauge_settles (GoString.ofString "a")
    [ChallengeCall.add (GoString.ofString "a"), ChallengeCall.add (GoString.ofString "b"),
      ChallengeCall.remove (GoString.ofString "a"),
      ChallengeCall.add (GoString.ofString "a")] hv
  obtain ⟨s', hrun', hread'⟩ := hthm.1
  obtain ⟨sp, hrun, _, hpos⟩ := hthm.2 hbal
    [ChallengeCall.add (GoString.ofString "a"), ChallengeCall.add (GoString.ofString "b"),
      ChallengeCall.remove (GoString.ofString "a")]
    [ChallengeCall.add (GoString.ofString "a")] rfl
  refine ⟨hv, hbal, ⟨s', hrun', ?_⟩, sp, hrun, hpos⟩
  rw [hread']
  decide

/-- C5: for every issuertype t, issuer i, count c and every prior state: when t
and i are valid UTF-8, `ReportCertEntries t i c` followed by
`DeleteCertEntries t i` succeeds and leaves no series for (t, i) in cert_entries
(absent, not an entry of value 0), while every other series of cert_entries is
as it was before the two calls; when t or i is not valid UTF-8, the report
panics in the lookup, the deletion returns the state unchanged, and a
well-formed state has no series for (t, i) either. -/
theorem report_then_delete_removes_series (t i : GoString) (c : Int) (s : State) :
    (validString t = true → validString i = true →
      ∃ s1 s2, ReportCertEntries t i c s = Except.ok s1 ∧
        DeleteCertEntries t i s1 = Except.ok s2 ∧
        s2.certEntries [t, i] = none ∧
        (∀ lvs, lvs ≠ [t, i] → s2.certEntries lvs = s.certEntries lvs)) ∧
    (¬ (validString t = true ∧ validString i = true) →
      (∃ v, ReportCertEntries t i c s = Except.error (VecError.invalidUTF8 v)) ∧
      DeleteCertEntries t i s = Except.ok s ∧
      (s.WellFormed → s.certEntries [t, i] = none)) := by
  constructor
  · intro ht hi
    refine ⟨_, _, ReportCertEntries_eq t i c s ht hi, DeleteCertEntries_eq t i _ ht hi, ?_, ?_⟩
    · simp
    · intro lvs hl
      simp [Function.update_noteq hl]
  · intro hbad
    obtain ⟨v, _, he⟩ := ReportCertEntries_invalid t i c s hbad
    exact ⟨⟨v, he⟩, DeleteCertEntries_invalid t i s hbad,
      fun hs => WellFormed_certEntries_invalid t i s hs hbad⟩

/-- Witness of C5: the series of another issuer, reported before, is still
there with its value after the report and the deletion of ("acme", "le"). -/
theorem report_then_delete_removes_series_witness :
    validString (GoString.ofString "acme") = true ∧
    validString (GoString.ofString "le") = true ∧
    ∃ s0 s1 s2, ReportCertEntries (GoString.ofString "acme") (GoString.ofString "other") 3
        State.fresh = Except.ok s0 ∧
      ReportCertEntries (GoString.ofString "acme") (GoString.ofString "le") 5 s0 =
        Except.ok s1 ∧
      DeleteCertEntries (GoString.ofString "acme") (GoString.ofString "le") s1 =
        Except.ok s2 ∧
      s2.certEntries [GoString.ofString "acme", GoString.ofString "le"] = none ∧
      s2.certEntries [GoString.ofString "acme", GoString.ofString "other"] = some 3 := by
  obtain ⟨s1, s2, h1, h2, h3, h4⟩ :=
    (report_then_delete_removes_series (GoString.ofString "acme") (GoString.ofString "le") 5
      { State.fresh with certEntries :=
        (Function.update State.fresh.certEntries
          [GoString.ofString "acme", GoString.ofString "other"] (some (float64 3))) }).1
      (by decide) (by decide)
  refine ⟨by decide, by decide, _, s1, s2,
    ReportCertEntries_eq (GoString.ofString "acme") (GoString.ofString "other") 3 State.fresh
      (by decide) (by decide), h1, h2, h3, ?_⟩
  rw [h4 [GoString.ofString "acme", GoString.ofString "other"] (by decide)]
  simp only [Function.update_same]
  decide

/-- Counterexample to C6 as stated: after `ReportCertEntries` with 5 and then
with 9007199254740993 (2^53 + 1) the reading is 9007199254740992, not the count
given; and with the issuer "le\x80", which is not valid UTF-8, the call panics
in the lookup and sets nothing. -/
theorem ReportCertEntries_reading_rounded :
    (∃ s1 s2, ReportCertEntries (GoString.ofString "acme") (GoString.ofString "le") 5
        State.fresh = Except.ok s1 ∧
      ReportCertEntries (GoString.ofString "acme") (GoString.ofString "le")
        9007199254740993 s1 = Except.ok s2 ∧
      reading s2.certEntries [GoString.ofString "acme", GoString.ofString "le"] =
        9007199254740992 ∧
      reading s2.certEntries [GoString.ofString "acme", GoString.ofString "le"] ≠
        9007199254740993) ∧
    validString [0x6c, 0x65, 0x80] = false ∧
    ReportCertEntries (GoString.ofString "acme") [0x6c, 0x65, 0x80] 5 State.fresh =
      Except.error (VecError.invalidUTF8 [0x6c, 0x65, 0x80]) := by
  refine ⟨⟨_, _, ReportCertEntries_eq (GoString.ofString "acme") (GoString.ofString "le") 5
    State.fresh (by decide) (by decide),
    ReportCertEntries_eq (GoString.ofString "acme") (GoString.ofString "le")
      9007199254740993 _ (by decide) (by decide), ?_, ?_⟩, by decide, by rfl⟩
  · simp only [reading, Function.update_same, Option.getD_some]
    decide
  · simp only [reading, Function.update_same, Option.getD_some]
    decide

/-- C6 (amended): `ReportCertEntries` has overwrite semantics: for every
issuertype t and issuer i that are valid UTF-8, counts a and b and every prior
state, after `ReportCertEntries t i a` then `ReportCertEntries t i b` the
cert_entries reading for (t, i) is float64(b), the binary64 number nearest to b,
which is b itself whenever |b| <= 2^53; it is not a + b and does not depend on
the reading before the calls; and `ReportCertEntries t i b` applied twice gives
the same state as applied once. -/
theorem ReportCertEntries_overwrites (t i : GoString) (a b : Int) (s : State)
    (ht : validString t = true) (hi : validString i = true) :
    (∃ s1 s2, ReportCertEntries t i a s = Except.ok s1 ∧
      ReportCertEntries t i b s1 = Except.ok s2 ∧
      s2.certEntries [t, i] = some (float64 b) ∧
      reading s2.certEntries [t, i] = float64 b ∧
      (b.natAbs ≤ 2 ^ 53 → reading s2.certEntries [t, i] = b)) ∧
    (∃ s', ReportCertEntries t i b s = Except.ok s' ∧
      ReportCertEntries t i b s' = Except.ok s') := by
  constructor
  · refine ⟨_, _, ReportCertEntries_eq t i a s ht hi, ReportCertEntries_eq t i b _ ht hi,
      ?_, ?_, ?_⟩
    · simp
    · simp [reading]
    · intro hb
      simp [reading, float64_exact b hb]
  · refine ⟨_, ReportCertEntries_eq t i b s ht hi, ?_⟩
    rw [ReportCertEntries_eq _ _ _ _ ht hi]
    simp

/-- Witness of C6 (amended): 7 then 12 on a state where the series held 40. -/
theorem ReportCertEntries_overwrites_witness :
    validString (GoString.ofString "acme") = true ∧
    validString (GoString.ofString "le") = true ∧
    ∃ s0 s1 s2, ReportCertEntries (GoString.ofString "acme") (GoString.ofString "le") 40
        State.fresh = Except.ok s0 ∧
      ReportCertEntries (GoString.ofString "acme") (GoString.ofString "le") 7 s0 =
        Except.ok s1 ∧
      ReportCertEntries (GoString.ofString "acme") (GoString.ofString "le") 12 s1 =
        Except.ok s2 ∧
      reading s2.certEntries [GoString.ofString "acme", GoString.ofString "le"] = 12 := by
  obtain ⟨s1, s2, h1, h2, _, _, h5⟩ :=
    (ReportCertEntries_overwrites (GoString.ofString "acme") (GoString.ofString "le") 7 12
      { State.fresh with certEntries :=
        (Function.update State.fresh.certEntries
          [GoString.ofString "acme", GoString.ofString "le"] (some (float64 40))) }
      (by decide) (by decide)).1
  exact ⟨by decide, by decide, _, s1, s2,
    ReportCertEntries_eq (GoString.ofString "acme") (GoString.ofString "le") 40 State.fresh
      (by decide) (by decide), h1, h2, h5 (by decide)⟩

/-- C7: `init` registers the four instruments (and the path "/metrics") without
failure, and their names, kinds and ordered label keys are those of the schema
table of the specification, row by row: acme_account_registrations, counter,
[server, email]; acme_obtains, counter, [issuer, success, dns_challenges,
renew]; acme_active_dns_challenges, gauge, [issuer]; cert_entries, gauge,
[issuertype, issuer]; the four names are pairwise distinct. -/
theorem schema_matches_spec :
    init = Except.ok
      { collectors :=
          [ACMEAccountRegistrations, ACMETotalObtains, ACMEActiveDNSChallenges, CertEntries],
        handlers := ["/metrics"] } ∧
    [ACMEAccountRegistrations, ACMETotalObtains, ACMEActiveDNSChallenges, CertEntries].map
      Desc.row = specSchema ∧
    ACMEAccountRegistrations.row =
      ("acme_account_registrations", Kind.counter, ["server", "email"]) ∧
    ACMETotalObtains.row =
      ("acme_obtains", Kind.counter, ["issuer", "success", "dns_challenges", "renew"]) ∧
    ACMEActiveDNSChallenges.row = ("acme_active_dns_challenges", Kind.gauge, ["issuer"]) ∧
    CertEntries.row = ("cert_entries", Kind.gauge, ["issuertype", "issuer"]) ∧
    ([ACMEAccountRegistrations, ACMETotalObtains, ACMEActiveDNSChallenges, CertEntries].map
      Desc.fqName).Pairwise (fun x y => x ≠ y) := by
  refine ⟨rfl, rfl, rfl, rfl, rfl, rfl, ?_⟩
  decide

/-- A call of `AddACMEObtain` with a positive count that returns a state has
raised by one the series of its label tuple and changed nothing else in
acme_obtains. -/
theorem AddACMEObtain_ok_update (issuer : GoString) (success : Bool) (count : Int)
    (renew : Bool) (s s' : State) (h : 0 < count)
    (hs : AddACMEObtain issuer success count renew s = Except.ok s') :
    s'.acmeObtains =
      Function.update s.acmeObtains
        [issuer, FormatBool success, FormatInt count, FormatBool renew]
        (some (reading s.acmeObtains
          [issuer, FormatBool success, FormatInt count, FormatBool renew] + 1)) := by
  by_cases hv : validString issuer = true
  · rw [AddACMEObtain_pos issuer success count renew s h hv] at hs
    injection hs with hs
    subst hs
    rfl
  · obtain ⟨v, _, he⟩ := AddACMEObtain_invalid issuer success count renew s h hv
    rw [he] at hs
    cases hs

/-- C8: for every issuer, success, renew and all counts c1, c2 > 0, the label
tuples `AddACMEObtain` builds for c1 and for c2 are equal if and only if
c1 = c2; whenever the call with c1 returns a state, the only change to
acme_obtains is that the series of the tuple of c1 is raised by one, and
likewise the call with c2 touches the series of the tuple of c2 and no other,
so that for c1 different from c2 the call with c1 leaves the series the call
with c2 touches exactly as it was; the call returns a state when the issuer is
valid UTF-8, and otherwise panics in the lookup, changing nothing. -/
theorem obtain_series_distinct_per_count (issuer : GoString) (success renew : Bool)
    (c1 c2 : Int) (h1 : 0 < c1) (h2 : 0 < c2) :
    ([issuer, FormatBool success, FormatInt c1, FormatBool renew] =
        [issuer, FormatBool success, FormatInt c2, FormatBool renew] ↔ c1 = c2) ∧
    (∀ s s' : State, AddACMEObtain issuer success c1 renew s = Except.ok s' →
      s'.acmeObtains =
        Function.update s.acmeObtains
          [issuer, FormatBool success, FormatInt c1, FormatBool renew]
          (some (reading s.acmeObtains
            [issuer, FormatBool success, FormatInt c1, FormatBool renew] + 1)) ∧
      reading s'.acmeObtains [issuer, FormatBool success, FormatInt c1, FormatBool renew] =
        reading s.acmeObtains
          [issuer, FormatBool success, FormatInt c1, FormatBool renew] + 1 ∧
      (c1 ≠ c2 →
        s'.acmeObtains [issuer, FormatBool success, FormatInt c2, FormatBool renew] =
          s.acmeObtains [issuer, FormatBool success, FormatInt c2, FormatBool renew])) ∧
    (∀ s s' : State, AddACMEObtain issuer success c2 renew s = Except.ok s' →
      reading s'.acmeObtains [issuer, FormatBool success, FormatInt c2, FormatBool renew] =
        reading s.acmeObtains
          [issuer, FormatBool success, FormatInt c2, FormatBool renew] + 1 ∧
      ∀ lvs, s'.acmeObtains lvs ≠ s.acmeObtains lvs →
        lvs = [issuer, FormatBool success, FormatInt c2, FormatBool renew]) ∧
    (validString issuer = true →
      ∀ s : State, (∃ s', AddACMEObtain issuer success c1 renew s = Except.ok s') ∧
        ∃ s', AddACMEObtain issuer success c2 renew s = Except.ok s') ∧
    (¬ validString issuer = true →
      ∀ s : State, ∃ v, AddACMEObtain issuer success c1 renew s =
        Except.error (VecError.invalidUTF8 v)) := by
  have hiff : [issuer, FormatBool success, FormatInt c1, FormatBool renew] =
      [issuer, FormatBool success, FormatInt c2, FormatBool renew] ↔ c1 = c2 := by
    constructor
    · intro h
      simp only [List.cons.injEq, true_and, and_true] at h
      exact FormatInt_injective c1 c2 h
    · intro h; rw [h]
  refine ⟨hiff, ?_, ?_, ?_, ?_⟩
  · intro s s' hs
    have hup := AddACMEObtain_ok_update issuer success c1 renew s s' h1 hs
    refine ⟨hup, by rw [hup]; simp [reading], ?_⟩
    intro hne
    have hk : [issuer, FormatBool success, FormatInt c2, FormatBool renew] ≠
        [issuer, FormatBool success, FormatInt c1, FormatBool renew] :=
      fun h => hne (hiff.mp h.symm)
    rw [hup, Function.update_noteq hk]
  · intro s s' hs
    have hup := AddACMEObtain_ok_update issuer success c2 renew s s' h2 hs
    refine ⟨by rw [hup]; simp [reading], ?_⟩
    intro lvs hl
    by_contra hne
    apply hl
    rw [hup, Function.update_noteq hne]
  · intro hv s
    exact ⟨⟨_, AddACMEObtain_pos issuer success c1 renew s h1 hv⟩,
      ⟨_, AddACMEObtain_pos issuer success c2 renew s h2 hv⟩⟩
  · intro hv s
    obtain ⟨v, _, he⟩ := AddACMEObtain_invalid issuer success c1 renew s h1 hv
    exact ⟨v, he⟩

/-- Witness of C8: counts 1 and 10 on the fresh state: the call with 1 makes the
series of "1" read 1 and leaves the series of "10" absent. -/
theorem obtain_series_distinct_per_count_witness :
    (0 : Int) < 1 ∧ (0 : Int) < 10 ∧ validString (GoString.ofString "le") = true ∧
    ([GoString.ofString "le", FormatBool true, FormatInt 1, FormatBool false] =
        [GoString.ofString "le", FormatBool true, FormatInt 10, FormatBool false] ↔
      (1 : Int) = 10) ∧
    ∃ s', AddACMEObtain (GoString.ofString "le") true 1 false State.fresh = Except.ok s' ∧
      reading s'.acmeObtains [GoString.ofString "le", GoString.ofString "true",
        GoString.ofString "1", GoString.ofString "false"] = 0 + 1 ∧
      s'.acmeObtains [GoString.ofString "le", GoString.ofString "true",
        GoString.ofString "10", GoString.ofString "false"] = none := by
  have h := obtain_series_distinct_per_count (GoString.ofString "le") true false 1 10
    (by decide) (by decide)
  obtain ⟨s', hs⟩ := (h.2.2.2.1 (by decide) State.fresh).1
  obtain ⟨_, hread, hkeep⟩ := h.2.1 State.fresh s' hs
  exact ⟨by decide, by decide, by decide, h.1, s', hs, hread, hkeep (by decide)⟩

/-- Counterexample to C9 as stated: accessors fail at runtime on a label value
that is not valid UTF-8, although the arity is right: the lookup panics in
`AddACMEAccountRegistration("\xff", "a@example.org")`,
`AddACMEObtain("\xff", true, 1, false)`, `AddActiveACMEDNSChallenge("\xc3\x28")`,
`RemoveActiveACMEDNSChallenge("\xc3\x28")` and
`ReportCertEntries("acme", "le\x80", 5)`. -/
theorem accessors_panic_on_invalid_utf8 :
    AddACMEAccountRegistration [0xff] (GoString.ofString "a@example.org") State.fresh =
      Except.error (VecError.invalidUTF8 [0xff]) ∧
    AddACMEObtain [0xff] true 1 false State.fresh =
      Except.error (VecError.invalidUTF8 [0xff]) ∧
    AddActiveACMEDNSChallenge [0xc3, 0x28] State.fresh =
      Except.error (VecError.invalidUTF8 [0xc3, 0x28]) ∧
    RemoveActiveACMEDNSChallenge [0xc3, 0x28] State.fresh =
      Except.error (VecError.invalidUTF8 [0xc3, 0x28]) ∧
    ReportCertEntries (GoString.ofString "acme") [0x6c, 0x65, 0x80] 5 State.fresh =
      Except.error (VecError.invalidUTF8 [0x6c, 0x65, 0x80]) ∧
    [([0xff] : GoString), GoString.ofString "a@example.org"].length =
      ACMEAccountRegistrations.variableLabels.length := by
  refine ⟨?_, ?_, ?_, ?_, ?_, ?_⟩ <;> rfl

/-- C9 (amended): in each of `AddACMEAccountRegistration`, `AddACMEObtain`,
`AddActiveACMEDNSChallenge`, `RemoveActiveACMEDNSChallenge`, `ReportCertEntries`
and `DeleteCertEntries`, for every input, the number of label values passed to
the metric vector equals the number of label keys declared for that metric (2,
4, 1, 1, 2, 2 respectively), so the label-arity-mismatch failure branch of the
lookup is unreachable: an accessor fails only by the panic of the lookup on a
label value that is not valid UTF-8; with label values that are valid UTF-8 no
accessor fails, and `DeleteCertEntries` fails on no input. -/
theorem accessors_total :
    (∀ (server email : GoString) (s : State),
      [server, email].length = 2 ∧ ACMEAccountRegistrations.variableLabels.length = 2 ∧
      (∀ e, AddACMEAccountRegistration server email s = Except.error e →
        ∃ v, validString v = false ∧ e = VecError.invalidUTF8 v) ∧
      (validString server = true → validString email = true →
        validateLabelValues ACMEAccountRegistrations [server, email] = Except.ok () ∧
        ∃ s', AddACMEAccountRegistration server email s = Except.ok s')) ∧
    (∀ (issuer : GoString) (success : Bool) (count : Int) (renew : Bool) (s : State),
      [issuer, FormatBool success, FormatInt count, FormatBool renew].length = 4 ∧
      ACMETotalObtains.variableLabels.length = 4 ∧
      (∀ e, AddACMEObtain issuer success count renew s = Except.error e →
        ∃ v, validString v = false ∧ e = VecError.invalidUTF8 v) ∧
      (validString issuer = true →
        validateLabelValues ACMETotalObtains
          [issuer, FormatBool success, FormatInt count, FormatBool renew] = Except.ok () ∧
        ∃ s', AddACMEObtain issuer success count renew s = Except.ok s')) ∧
    (∀ (issuer : GoString) (s : State),
      [issuer].length = 1 ∧ ACMEActiveDNSChallenges.variableLabels.length = 1 ∧
      (∀ e, AddActiveACMEDNSChallenge issuer s = Except.error e →
        ∃ v, validString v = false ∧ e = VecError.invalidUTF8 v) ∧
      (∀ e, RemoveActiveACMEDNSChallenge issuer s = Except.error e →
        ∃ v, validString v = false ∧ e = VecError.invalidUTF8 v) ∧
      (validString issuer = true →
        validateLabelValues ACMEActiveDNSChallenges [issuer] = Except.ok () ∧
        (∃ s', AddActiveACMEDNSChallenge issuer s = Except.ok s') ∧
        (∃ s', RemoveActiveACMEDNSChallenge issuer s = Except.ok s'))) ∧
    (∀ (issuertype issuer : GoString) (count : Int) (s : State),
      [issuertype, issuer].length = 2 ∧ CertEntries.variableLabels.length = 2 ∧
      (∀ e, ReportCertEntries issuertype issuer count s = Except.error e →
        ∃ v, validString v = false ∧ e = VecError.invalidUTF8 v) ∧
      (∃ s', DeleteCertEntries issuertype issuer s = Except.ok s') ∧
      (validString issuertype = true → validString issuer = true →
        validateLabelValues CertEntries [issuertype, issuer] = Except.ok () ∧
        ∃ s', ReportCertEntries issuertype issuer count s = Except.ok s')) := by
  refine ⟨?_, ?_, ?_, ?_⟩
  · intro server email s
    refine ⟨rfl, rfl, ?_, ?_⟩
    · intro e he
      by_cases hv : validString server = true ∧ validString email = true
      · rw [AddACMEAccountRegistration_eq server email s hv.1 hv.2] at he; cases he
      · obtain ⟨v, hbad, h⟩ := AddACMEAccountRegistration_invalid server email s hv
        rw [h] at he
        injection he with he
        exact ⟨v, hbad, he.symm⟩
    · intro hs he
      exact ⟨validate_pair _ _ _ (by rfl) hs he, _,
        AddACMEAccountRegistration_eq server email s hs he⟩
  · intro issuer success count renew s
    refine ⟨rfl, rfl, ?_, ?_⟩
    · intro e he
      by_cases hc : 0 < count
      · by_cases hv : validString issuer = true
        · rw [AddACMEObtain_pos issuer success count renew s hc hv] at he; cases he
        · obtain ⟨v, hbad, h⟩ := AddACMEObtain_invalid issuer success count renew s hc hv
          rw [h] at he
          injection he with he
          exact ⟨v, hbad, he.symm⟩
      · rw [AddACMEObtain_nonpos issuer success count renew s (not_lt.mp hc)] at he; cases he
    · intro hv
      refine ⟨validate_obtain issuer success count renew hv, ?_⟩
      by_cases hc : 0 < count
      · exact ⟨_, AddACMEObtain_pos issuer success count renew s hc hv⟩
      · exact ⟨_, AddACMEObtain_nonpos issuer success count renew s (not_lt.mp hc)⟩
  · intro issuer s
    refine ⟨rfl, rfl, ?_, ?_, ?_⟩
    · intro e he
      by_cases hv : validString issuer = true
      · rw [AddActiveACMEDNSChallenge_eq issuer s hv] at he; cases he
      · obtain ⟨v, hbad, h⟩ := AddActiveACMEDNSChallenge_invalid issuer s hv
        rw [h] at he
        injection he with he
        exact ⟨v, hbad, he.symm⟩
    · intro e he
      by_cases hv : validString issuer = true
      · rw [RemoveActiveACMEDNSChallenge_eq issuer s hv] at he; cases he
      · obtain ⟨v, hbad, h⟩ := RemoveActiveACMEDNSChallenge_invalid issuer s hv
        rw [h] at he
        injection he with he
        exact ⟨v, hbad, he.symm⟩
    · intro hv
      exact ⟨validate_single _ _ (by rfl) hv, ⟨_, AddActiveACMEDNSChallenge_eq issuer s hv⟩,
        ⟨_, RemoveActiveACMEDNSChallenge_eq issuer s hv⟩⟩
  · intro issuertype issuer count s
    refine ⟨rfl, rfl, ?_, ?_, ?_⟩
    · intro e he
      by_cases hv : validString issuertype = true ∧ validString issuer = true
      · rw [ReportCertEntries_eq issuertype issuer count s hv.1 hv.2] at he; cases he
      · obtain ⟨v, hbad, h⟩ := ReportCertEntries_invalid issuertype issuer count s hv
        rw [h] at he
        injection he with he
        exact ⟨v, hbad, he.symm⟩
    · exact ⟨_, rfl⟩
    · intro ht hi
      exact ⟨validate_pair _ _ _ (by rfl) ht hi, _,
        ReportCertEntries_eq issuertype issuer count s ht hi⟩

/-- Witness of C9 (amended): the six accessors, one after the other, on label
values that are valid UTF-8. -/
theorem accessors_total_witness :
    validString (GoString.ofString "acme-v02") = true ∧
    validString (GoString.ofString "a@example.org") = true ∧
    validString (GoString.ofString "le") = true ∧
    (∃ s', AddACMEAccountRegistration (GoString.ofString "acme-v02")
      (GoString.ofString "a@example.org") State.fresh = Except.ok s') ∧
    (∃ s', AddACMEObtain (GoString.ofString "le") true 3 false State.fresh = Except.ok s') ∧
    (∃ s', AddActiveACMEDNSChallenge (GoString.ofString "le") State.fresh = Except.ok s') ∧
    (∃ s', RemoveActiveACMEDNSChallenge (GoString.ofString "le") State.fresh =
      Except.ok s') ∧
    (∃ s', ReportCertEntries (GoString.ofString "acme-v02") (GoString.ofString "le") 5
      State.fresh = Except.ok s') ∧
    (∃ s', DeleteCertEntries (GoString.ofString "acme-v02") [0x6c, 0x65, 0x80]
      State.fresh = Except.ok s') :=
  ⟨by decide, by decide, by decide,
    ((accessors_total.1 (GoString.ofString "acme-v02") (GoString.ofString "a@example.org")
      State.fresh).2.2.2 (by decide) (by decide)).2,
    ((accessors_total.2.1 (GoString.ofString "le") true 3 false State.fresh).2.2.2
      (by decide)).2,
    ((accessors_total.2.2.1 (GoString.ofString "le") State.fresh).2.2.2.2 (by decide)).2.1,
    ((accessors_total.2.2.1 (GoString.ofString "le") State.fresh).2.2.2.2 (by decide)).2.2,
    ((accessors_total.2.2.2 (GoString.ofString "acme-v02") (GoString.ofString "le") 5
      State.fresh).2.2.2.2 (by decide) (by decide)).2,
    (accessors_total.2.2.2 (GoString.ofString "acme-v02") [0x6c, 0x65, 0x80] 5
      State.fresh).2.2.2.1⟩

/-- C10: each accessor changes only its own instrument: whenever it returns a
state, `AddACMEAccountRegistration` has left acme_obtains,
acme_active_dns_challenges and cert_entries as they were; `AddACMEObtain` the
other three; `AddActiveACMEDNSChallenge` and `RemoveActiveACMEDNSChallenge`
every metric but acme_active_dns_challenges; `ReportCertEntries` and
`DeleteCertEntries` every metric but cert_entries; and no reading of
acme_account_registrations or of acme_obtains has been lowered.  An accessor
returns a state on all label values that are valid UTF-8 (`DeleteCertEntries`
and `AddACMEObtain` with count <= 0 on every input); on the others the lookup
panics and nothing is changed at all. -/
theorem accessors_frame :
    (∀ (server email : GoString) (s : State),
      (validString server = true ∧ validString email = true →
        ∃ s', AddACMEAccountRegistration server email s = Except.ok s' ∧
          s'.acmeObtains = s.acmeObtains ∧
          s'.acmeActiveDNSChallenges = s.acmeActiveDNSChallenges ∧
          s'.certEntries = s.certEntries ∧
          (∀ lvs, reading s.acmeAccountRegistrations lvs ≤
            reading s'.acmeAccountRegistrations lvs) ∧
          (∀ lvs, reading s.acmeObtains lvs ≤ reading s'.acmeObtains lvs)) ∧
      (¬ (validString server = true ∧ validString email = true) →
        ∃ e, AddACMEAccountRegistration server email s = Except.error e)) ∧
    (∀ (issuer : GoString) (success : Bool) (count : Int) (renew : Bool) (s : State),
      (count ≤ 0 ∨ validString issuer = true →
        ∃ s', AddACMEObtain issuer success count renew s = Except.ok s' ∧
          s'.acmeAccountRegistrations = s.acmeAccountRegistrations ∧
          s'.acmeActiveDNSChallenges = s.acmeActiveDNSChallenges ∧
          s'.certEntries = s.certEntries ∧
          (∀ lvs, reading s.acmeAccountRegistrations lvs ≤
            reading s'.acmeAccountRegistrations lvs) ∧
          (∀ lvs, reading s.acmeObtains lvs ≤ reading s'.acmeObtains lvs)) ∧
      (¬ (count ≤ 0 ∨ validString issuer = true) →
        ∃ e, AddACMEObtain issuer success count renew s = Except.error e)) ∧
    (∀ (issuer : GoString) (s : State),
      (validString issuer = true →
        ∃ s', AddActiveACMEDNSChallenge issuer s = Except.ok s' ∧
          s'.acmeAccountRegistrations = s.acmeAccountRegistrations ∧
          s'.acmeObtains = s.acmeObtains ∧
          s'.certEntries = s.certEntries ∧
          (∀ lvs, reading s.acmeAccountRegistrations lvs ≤
            reading s'.acmeAccountRegistrations lvs) ∧
          (∀ lvs, reading s.acmeObtains lvs ≤ reading s'.acmeObtains lvs)) ∧
      (¬ validString issuer = true →
        ∃ e, AddActiveACMEDNSChallenge issuer s = Except.error e)) ∧
    (∀ (issuer : GoString) (s : State),
      (validString issuer = true →
        ∃ s', RemoveActiveACMEDNSChallenge issuer s = Except.ok s' ∧
          s'.acmeAccountRegistrations = s.acmeAccountRegistrations ∧
          s'.acmeObtains = s.acmeObtains ∧
          s'.certEntries = s.certEntries ∧
          (∀ lvs, reading s.acmeAccountRegistrations lvs ≤
            reading s'.acmeAccountRegistrations lvs) ∧
          (∀ lvs, reading s.acmeObtains lvs ≤ reading s'.acmeObtains lvs)) ∧
      (¬ validString issuer = true →
        ∃ e, RemoveActiveACMEDNSChallenge issuer s = Except.error e)) ∧
    (∀ (issuertype issuer : GoString) (count : Int) (s : State),
      (validString issuertype = true ∧ validString issuer = true →
        ∃ s', ReportCertEntries issuertype issuer count s = Except.ok s' ∧
          s'.acmeAccountRegistrations = s.acmeAccountRegistrations ∧
          s'.acmeObtains = s.acmeObtains ∧
          s'.acmeActiveDNSChallenges = s.acmeActiveDNSChallenges ∧
          (∀ lvs, reading s.acmeAccountRegistrations lvs ≤
            reading s'.acmeAccountRegistrations lvs) ∧
          (∀ lvs, reading s.acmeObtains lvs ≤ reading s'.acmeObtains lvs)) ∧
      (¬ (validString issuertype = true ∧ validString issuer = true) →
        ∃ e, ReportCertEntries issuertype issuer count s = Except.error e)) ∧
    (∀ (issuertype issuer : GoString) (s : State),
      ∃ s', DeleteCertEntries issuertype issuer s = Except.ok s' ∧
        s'.acmeAccountRegistrations = s.acmeAccountRegistrations ∧
        s'.acmeObtains = s.acmeObtains ∧
        s'.acmeActiveDNSChallenges = s.acmeActiveDNSChallenges ∧
        (∀ lvs, reading s.acmeAccountRegistrations lvs ≤
          reading s'.acmeAccountRegistrations lvs) ∧
        (∀ lvs, reading s.acmeObtains lvs ≤ reading s'.acmeObtains lvs)) := by
  refine ⟨?_, ?_, ?_, ?_, ?_, ?_⟩
  · intro server email s
    constructor
    · intro hv
      exact ⟨_, AddACMEAccountRegistration_eq server email s hv.1 hv.2, rfl, rfl, rfl,
        fun lvs => reading_le_update_succ _ _ lvs, fun _ => le_refl _⟩
    · intro hv
      obtain ⟨v, _, he⟩ := AddACMEAccountRegistration_invalid server email s hv
      exact ⟨_, he⟩
  · intro issuer success count renew s
    constructor
    · intro hv
      by_cases h : 0 < count
      · have hval : validString issuer = true := by
          rcases hv with hc | hval
          · omega
          · exact hval
        exact ⟨_, AddACMEObtain_pos issuer success count renew s h hval, rfl, rfl, rfl,
          fun _ => le_refl _, fun lvs => reading_le_update_succ _ _ lvs⟩
      · exact ⟨_, AddACMEObtain_nonpos issuer success count renew s (not_lt.mp h), rfl, rfl,
          rfl, fun _ => le_refl _, fun _ => le_refl _⟩
    · intro hv
      have hc : 0 < count := by
        by_contra hc
        exact hv (Or.inl (not_lt.mp hc))
      obtain ⟨v, _, he⟩ := AddACMEObtain_invalid issuer success count renew s hc
        (fun h => hv (Or.inr h))
      exact ⟨_, he⟩
  · intro issuer s
    constructor
    · intro hv
      exact ⟨_, AddActiveACMEDNSChallenge_eq issuer s hv, rfl, rfl, rfl,
        fun _ => le_refl _, fun _ => le_refl _⟩
    · intro hv
      obtain ⟨v, _, he⟩ := AddActiveACMEDNSChallenge_invalid issuer s hv
      exact ⟨_, he⟩
  · intro issuer s
    constructor
    · intro hv
      exact ⟨_, RemoveActiveACMEDNSChallenge_eq issuer s hv, rfl, rfl, rfl,
        fun _ => le_refl _, fun _ => le_refl _⟩
    · intro hv
      obtain ⟨v, _, he⟩ := RemoveActiveACMEDNSChallenge_invalid issuer s hv
      exact ⟨_, he⟩
  · intro issuertype issuer count s
    constructor
    · intro hv
      exact ⟨_, ReportCertEntries_eq issuertype issuer count s hv.1 hv.2, rfl, rfl, rfl,
        fun _ => le_refl _, fun _ => le_refl _⟩
    · intro hv
      obtain ⟨v, _, he⟩ := ReportCertEntries_invalid issuertype issuer count s hv
      exact ⟨_, he⟩
  · intro issuertype issuer s
    exact ⟨_, rfl, rfl, rfl, rfl, fun _ => le_refl _, fun _ => le_refl _⟩

/-- Witness of C10: a registration on the fresh state leaves the three other
instruments without series. -/
theorem accessors_frame_witness :
    (validString (GoString.ofString "acme-v02") = true ∧
      validString (GoString.ofString "a@example.org") = true) ∧
    ∃ s', AddACMEAccountRegistration (GoString.ofString "acme-v02")
        (GoString.ofString "a@example.org") State.fresh = Except.ok s' ∧
      s'.acmeObtains = State.fresh.acmeObtains ∧
      s'.acmeActiveDNSChallenges = State.fresh.acmeActiveDNSChallenges ∧
      s'.certEntries = State.fresh.certEntries := by
  obtain ⟨s', h1, h2, h3, h4, _⟩ :=
    (accessors_frame.1 (GoString.ofString "acme-v02") (GoString.ofString "a@example.org")
      State.fresh).1 ⟨by decide, by decide⟩
  exact ⟨⟨by decide, by decide⟩, s', h1, h2, h3, h4⟩

end Metrics
